import Mathlib

/-!
# Verification of `deeppavlov/models/evolution/evolution_many_inputs_model.py`

Shallow embedding of the class `KerasEvolutionClassificationManyInputsModel`
(the only source file of this repository).  Graph nodes are indexed by natural
numbers `0 .. n-1`, mirroring the string keys `"0" .. "n-1"` of
`params["nodes"]`.  Keras tensors are represented by their static shapes with
the batch axis (always `None` in the source) left implicit:
rank 2 is `(batch, features)` and rank 3 is `(batch, time, features)`.
Keras layer applications are recorded symbolically, and every construction of
a keras layer object is logged, so that layer sharing and layer creation can
be reasoned about.  Python exceptions are modelled with `Except`/error
results; a computation that the source would run forever is modelled with a
fuel parameter, exhaustion of the fuel for every fuel value meaning
divergence.
-/

/-- Static keras tensor shape with the batch axis left implicit:
`r2 f` is `(None, f)`, `r3 t f` is `(None, t, f)`. -/
inductive Shape where
  | r2 (f : Nat)
  | r3 (t f : Nat)
deriving DecidableEq, Repr

/-- Symbolic keras tensor: the graph of layer applications that produced it.
`applyL i e` is the application of the layer object with identifier `i`,
`applyAttn i e` is `multiplicative_self_attention_get_output(e, layers[i])`,
`concatF` / `concatA1` are `Concatenate()` / `Concatenate(axis=1)`,
`addE` / `multE` / `subtE` are `Add()` / `Multiply()` / `Subtract()`,
and `activationE` is `Activation(name)`. -/
inductive Expr where
  | input (i : Nat)
  | applyL (layerId : Nat) (e : Expr)
  | applyAttn (layerId : Nat) (e : Expr)
  | concatF (es : List Expr)
  | concatA1 (es : List Expr)
  | addE (es : List Expr)
  | multE (es : List Expr)
  | subtE (es : List Expr)
  | activationE (name : String) (e : Expr)

/-- The keras layer objects the source can construct (the node layer catalog
reachable through `globals()` plus the layers built inline by the model
builder).  `lambdaExpandL` is `Lambda(lambda x: expand_tile(x, axis=1))`,
`otherCallableL` stands for a callable module global that is not a layer
constructor (e.g. `copy`, `register`): calling its result on a tensor is not
a valid layer application. -/
inductive LayerSpec where
  | denseL (units : Nat)
  | lstmL (units : Nat) (return_sequences : Bool)
  | cuDNNLSTML (units : Nat)
  | biCuDNNL (units : Nat)
  | attnL
  | gmpL
  | lambdaExpandL
  | conv1dL (filters : Nat) (kernel_size : Nat)
  | dropoutL
  | batchNormL
  | maxPool1dL (pool_size : Nat)
  | otherCallableL (name : String)
deriving DecidableEq, Repr

/-- Whether a layer owns trainable weights (keras semantics: `Dense`, the
recurrent layers, `Conv1D`, `BatchNormalization` and the attention parameters
do; pooling, dropout and `Lambda` layers do not). -/
def LayerSpec.trainable : LayerSpec → Bool
  | .denseL _ => true
  | .lstmL _ _ => true
  | .cuDNNLSTML _ => true
  | .biCuDNNL _ => true
  | .attnL => true
  | .conv1dL _ _ => true
  | .batchNormL => true
  | .gmpL => false
  | .lambdaExpandL => false
  | .dropoutL => false
  | .maxPool1dL _ => false
  | .otherCallableL _ => false

/-- Output shape of applying a layer to a tensor (keras semantics of the
layer kinds used by the source).  `biCuDNNL` is
`Bidirectional(CuDNNLSTM(units))` with the keras defaults
`return_sequences=False` and `merge_mode='concat'`, hence `(None, 2*units)`.
`lambdaExpandL` is the `expand_tile(x, axis=1)` lift of a rank-2 tensor to
rank 3 with a time axis of length 1. -/
def applyShape : LayerSpec → Shape → Except String Shape
  | .denseL u, .r2 _ => .ok (.r2 u)
  | .denseL u, .r3 t _ => .ok (.r3 t u)
  | .lstmL u rs, .r3 t _ => .ok (if rs then .r3 t u else .r2 u)
  | .lstmL _ _, .r2 _ => .error "LSTM expects a rank-3 input"
  | .cuDNNLSTML u, .r3 _ _ => .ok (.r2 u)
  | .cuDNNLSTML _, .r2 _ => .error "CuDNNLSTM expects a rank-3 input"
  | .biCuDNNL u, .r3 _ _ => .ok (.r2 (2 * u))
  | .biCuDNNL _, .r2 _ => .error "Bidirectional CuDNNLSTM expects a rank-3 input"
  | .attnL, .r3 t f => .ok (.r3 t f)
  | .attnL, .r2 _ => .error "self attention expects a rank-3 input"
  | .gmpL, .r3 _ f => .ok (.r2 f)
  | .gmpL, .r2 _ => .error "GlobalMaxPooling1D expects a rank-3 input"
  | .lambdaExpandL, .r2 f => .ok (.r3 1 f)
  | .lambdaExpandL, .r3 _ _ => .error "expand_tile lift expects a rank-2 input"
  | .conv1dL fl k, .r3 t _ => .ok (.r3 (t + 1 - k) fl)
  | .conv1dL _ _, .r2 _ => .error "Conv1D expects a rank-3 input"
  | .dropoutL, s => .ok s
  | .batchNormL, s => .ok s
  | .maxPool1dL p, .r3 t f => .ok (.r3 (t / p) f)
  | .maxPool1dL _, .r2 _ => .error "MaxPooling1D expects a rank-3 input"
  | .otherCallableL n, _ => .error ("calling the result of " ++ n ++ " is not a layer application")

/-- Keras broadcast of one non-batch axis length in an elementwise merge
layer: equal lengths, or one of them 1. -/
def broadcast2 (a b : Nat) : Option Nat :=
  if a = b then some a else if a = 1 then some b else if b = 1 then some a else none

/-- One step of the elementwise-merge width fold. -/
def elemStep (acc : Except String Nat) (b : Nat) : Except String Nat :=
  match acc with
  | .error e => .error e
  | .ok a =>
    match broadcast2 a b with
    | some c => .ok c
    | none => .error "Operands could not be broadcast together."

/-- Keras `_Merge.build` width rule for `Add()` / `Multiply()` applied to a
list of rank-2 tensors: at least two inputs, widths broadcast pairwise. -/
def elemMergeWidth (ws : List Nat) : Except String Nat :=
  match ws with
  | [] => .error "A merge layer should be called on a list of at least 2 inputs."
  | [_] => .error "A merge layer should be called on a list of at least 2 inputs."
  | w :: rest => rest.foldl elemStep (.ok w)

/-- Keras `Subtract.build` width rule: exactly two rank-2 inputs. -/
def subtractWidth (ws : List Nat) : Except String Nat :=
  match ws with
  | [a, b] =>
    match broadcast2 a b with
    | some c => .ok c
    | none => .error "Operands could not be broadcast together."
  | _ => .error "A Subtract layer should be called on exactly 2 inputs"

/-- One step of a rank-2 concatenation fold (for rank-2 tensors axes
`-1` and `1` coincide: widths add). -/
def catStepR2 (acc : Except String Shape) (s : Shape) : Except String Shape :=
  match acc, s with
  | .ok (Shape.r2 a), Shape.r2 b => .ok (Shape.r2 (a + b))
  | .error e, _ => .error e
  | _, _ => .error "Concatenate inputs must have matching shapes"

/-- One step of the rank-3 feature-axis concatenation fold: equal times,
widths add. -/
def catLastStepR3 (acc : Except String Shape) (s : Shape) : Except String Shape :=
  match acc, s with
  | .ok (Shape.r3 a b), Shape.r3 t2 f2 =>
    if a = t2 then .ok (Shape.r3 a (b + f2))
    else .error "Concatenate inputs must have matching shapes"
  | .error e, _ => .error e
  | _, _ => .error "Concatenate inputs must have matching shapes"

/-- One step of the rank-3 time-axis concatenation fold: equal widths,
times add. -/
def catAx1StepR3 (acc : Except String Shape) (s : Shape) : Except String Shape :=
  match acc, s with
  | .ok (Shape.r3 a b), Shape.r3 t2 f2 =>
    if b = f2 then .ok (Shape.r3 (a + t2) b)
    else .error "Concatenate inputs must have matching shapes"
  | .error e, _ => .error e
  | _, _ => .error "Concatenate inputs must have matching shapes"

/-- Keras `Concatenate()` (default axis `-1`) shape rule: at least two
inputs, equal rank, all axes other than the last equal. -/
def concatLastShape (ss : List Shape) : Except String Shape :=
  match ss with
  | [] => .error "A Concatenate layer should be called on a list of at least 2 inputs"
  | [_] => .error "A Concatenate layer should be called on a list of at least 2 inputs"
  | .r2 f :: rest => rest.foldl catStepR2 (.ok (.r2 f))
  | .r3 t f :: rest => rest.foldl catLastStepR3 (.ok (.r3 t f))

/-- Keras `Concatenate(axis=1)` shape rule: at least two inputs, equal rank;
for rank-2 tensors axis 1 is the feature axis (widths add), for rank-3
tensors it is the time axis (times add, features must agree). -/
def concatAxis1Shape (ss : List Shape) : Except String Shape :=
  match ss with
  | [] => .error "A Concatenate layer should be called on a list of at least 2 inputs"
  | [_] => .error "A Concatenate layer should be called on a list of at least 2 inputs"
  | .r2 f :: rest => rest.foldl catStepR2 (.ok (.r2 f))
  | .r3 t f :: rest => rest.foldl catAx1StepR3 (.ok (.r3 t f))

/-- The constructor keyword arguments of one node after the
`node_name` / `node_type` / `node_layer` keys are popped (lines 209-212,
224-227, 238-241 of the source). -/
structure KwArgs where
  units : Option Nat
  return_sequences : Bool
  filters : Option Nat
  kernel_size : Option Nat
  pool_size : Option Nat
deriving DecidableEq, Repr

/-- Keyword arguments with every optional key absent. -/
def KwArgs.none0 : KwArgs := ⟨none, false, none, none, none⟩

/-- Per-node configuration dictionary `params[params["nodes"][i]]`. -/
structure NodeSpec where
  node_name : String
  node_type : String
  node_layer : Nat
  kwargs : KwArgs
deriving DecidableEq, Repr

/-- Names bound to callable objects in the module namespace of the source
file (`globals()`), i.e. the names for which `callable(globals().get(name))`
holds: the imported keras layer classes and the imported helper
functions/classes.  Module objects (`np`, `K`) and the logger instance
(`log`) are module globals but are not callable, so they are not listed. -/
def globalsCallables : List String :=
  ["Dense", "Input", "concatenate", "Activation", "Conv1D", "Dropout",
   "BatchNormalization", "GlobalMaxPooling1D", "MaxPooling1D", "LSTM",
   "Bidirectional", "Model", "l2", "Concatenate", "Reshape", "CuDNNLSTM",
   "Lambda", "Add", "Subtract", "Multiply", "overrides", "Path",
   "ConfigError", "register", "KerasModel", "KerasIntentModel",
   "labels2onehot", "log_metrics", "proba2labels", "FasttextEmbedder",
   "md5_hashsum", "NLTKTokenizer", "get_logger", "number_to_type_layer",
   "find_sources_and_sinks", "get_digraph_from_binary_mask",
   "get_graph_and_plot", "expand_tile", "save_json", "read_json",
   "multiplicative_self_attention_init",
   "multiplicative_self_attention_get_output",
   "copy", "deepcopy", "KerasEvolutionClassificationManyInputsModel"]

/-- Calling the callable global `name` with keyword arguments `kw`
(`node_func(**node_params)`, line 243).  Layer classes yield a layer object;
a missing required argument is a `TypeError`; a callable global that is not
a layer constructor yields an object that is not a layer. -/
def constructByName (name : String) (kw : KwArgs) : Except String LayerSpec :=
  if name = "Dense" then
    match kw.units with
    | some u => .ok (.denseL u)
    | none => .error "TypeError: Dense missing required argument units"
  else if name = "LSTM" then
    match kw.units with
    | some u => .ok (.lstmL u kw.return_sequences)
    | none => .error "TypeError: LSTM missing required argument units"
  else if name = "CuDNNLSTM" then
    match kw.units with
    | some u => .ok (.cuDNNLSTML u)
    | none => .error "TypeError: CuDNNLSTM missing required argument units"
  else if name = "GlobalMaxPooling1D" then .ok .gmpL
  else if name = "Conv1D" then
    match kw.filters, kw.kernel_size with
    | some fl, some k => .ok (.conv1dL fl k)
    | _, _ => .error "TypeError: Conv1D missing required arguments"
  else if name = "Dropout" then .ok .dropoutL
  else if name = "BatchNormalization" then .ok .batchNormL
  else if name = "MaxPooling1D" then .ok (.maxPool1dL (kw.pool_size.getD 2))
  else .ok (.otherCallableL name)

/-- `params["text_size"]`: either one shared length or one length per input
stream (`type(self.opt['text_size']) is list`, line 72). -/
inductive TSize where
  | single (n : Nat)
  | perStream (l : List Nat)
deriving DecidableEq, Repr

/-- The per-stream sequence length used for stream `i`
(lines 72-75 and 259-264): indexing a per-stream list out of range is a
Python `IndexError`. -/
def textSizeAt (t : TSize) (i : Nat) : Option Nat :=
  match t with
  | .single n => some n
  | .perStream l => l[i]?

/-- The architecture descriptor `self.opt` fields read by the model builder.
`inLen` is `len(params["in"])`, `nodes` collapses the two-level indirection
`params["nodes"][str(i)]` / `params[key]` of the source into a list indexed
by node number. -/
structure Params where
  inLen : Nat
  text_size : TSize
  embedding_size : Nat
  nodes : List NodeSpec
  binary_mask : List (List Nat)
  n_classes : Nat
  last_layer_activation : Option String
deriving DecidableEq, Repr

/-- `np.sum(params["binary_mask"])` (line 268). -/
def maskSum (p : Params) : Nat :=
  (p.binary_mask.map List.sum).sum

/-- Directed graph over nodes `0 .. n-1` given by a binary adjacency mask:
`adj[u][v] = 1` is an edge `u → v`. -/
structure DiGraph where
  n : Nat
  adj : List (List Nat)
deriving DecidableEq, Repr

/-- Edge test on the adjacency mask. -/
def DiGraph.edge (dg : DiGraph) (u v : Nat) : Bool :=
  ((dg.adj.getD u []).getD v 0) == 1

/-- Predecessors of `v` in increasing node order (this is the order in which
`networkx` yields `dg.in_edges(v)` for a graph whose edges were inserted in
row-major mask order). -/
def DiGraph.predsOf (dg : DiGraph) (v : Nat) : List Nat :=
  (List.range dg.n).filter (fun u => dg.edge u v)

/-- Successors of `u` in increasing node order (order of `dg.out_edges(u)`). -/
def DiGraph.succsOf (dg : DiGraph) (u : Nat) : List Nat :=
  (List.range dg.n).filter (fun v => dg.edge u v)

/-- In-degree of a node. -/
def DiGraph.inDeg (dg : DiGraph) (v : Nat) : Nat :=
  (dg.predsOf v).length

/-- Out-degree of a node. -/
def DiGraph.outDeg (dg : DiGraph) (u : Nat) : Nat :=
  (dg.succsOf u).length

/-- Modelled from the spec: `get_digraph_from_binary_mask(nodes, mask)`
(imported from `check_binary_mask`, not under `src/`) converts the binary
adjacency mask over the node set into a directed graph object, an edge
`i → j` for every `mask[i][j] == 1`. -/
def getDigraphFromBinaryMask (numNodes : Nat) (mask : List (List Nat)) : DiGraph :=
  ⟨numNodes, mask⟩

/-- Modelled from the spec: `find_sources_and_sinks(dg)` (imported from
`check_binary_mask`, not under `src/`) classifies nodes as sources
(in-degree 0, out-degree > 0), sinks (out-degree 0, in-degree > 0) and
isolates (no edges at all), each list in stable increasing node order. -/
def findSourcesAndSinks (dg : DiGraph) : List Nat × List Nat × List Nat :=
  ((List.range dg.n).filter (fun v => dg.inDeg v == 0 && dg.outDeg v != 0),
   (List.range dg.n).filter (fun v => dg.outDeg v == 0 && dg.inDeg v != 0),
   (List.range dg.n).filter (fun v => dg.inDeg v == 0 && dg.outDeg v == 0))

/-- One iteration of the scheduling loop (lines 309-324): for every node of
the previous layer, every out-neighbour all of whose predecessors are
already scheduled is appended (once per such out-edge). -/
def nextNodes (dg : DiGraph) (scheduled lastLayer : List Nat) : List Nat :=
  lastLayer.flatMap
    (fun u => (dg.succsOf u).filter
      (fun v => (dg.predsOf v).all (fun w => scheduled.contains w)))

/-- The `while True` scheduling loop (lines 306-324): stop as soon as the
sinks are a subset of the scheduled nodes, otherwise grow one more layer.
The source has no other exit; `fuel` counts loop iterations and `none`
means the iteration budget was exhausted, so `none` for every fuel value is
divergence of the source loop. -/
def schedLoop (dg : DiGraph) (sinksL : List Nat) : Nat → List (List Nat) → Option (List (List Nat))
  | 0, _ => none
  | fuel + 1, seq =>
    if sinksL.all (fun s => seq.flatten.contains s) then some seq
    else schedLoop dg sinksL fuel (seq ++ [nextNodes dg seq.flatten (seq.getLastD [])])

/-- Bounded successor closure step (auxiliary, for deciding acyclicity of a
concrete mask). -/
def stepSucc (dg : DiGraph) (s : List Nat) : List Nat :=
  (s.flatMap dg.succsOf).dedup

/-- Bounded reachability closure (auxiliary). -/
def reachAux (dg : DiGraph) : Nat → List Nat → List Nat
  | 0, s => s
  | k + 1, s => reachAux dg k ((s ++ stepSucc dg s).dedup)

/-- Nodes reachable from `v` by at least one edge (auxiliary). -/
def reachablePlus (dg : DiGraph) (v : Nat) : List Nat :=
  reachAux dg dg.n (dg.succsOf v)

/-- The mask is interpretable as a DAG: no node reaches itself. -/
def acyclicB (dg : DiGraph) : Bool :=
  (List.range dg.n).all (fun v => !(reachablePlus dg v).contains v)

/-- Every sink is reachable from some source. -/
def sinksReachableB (dg : DiGraph) : Bool :=
  let fss := findSourcesAndSinks dg
  fss.2.1.all (fun s => fss.1.any (fun src => (reachablePlus dg src).contains s))

/-- Mutable build context threaded through one call of
`evolution_many_inputs_classification_model`: a fresh-identifier counter for
keras layer objects constructed by the builder itself, the log of those
constructions in creation order, and instrumentation flags recording whether
graph extraction, `initialize_all_nodes` and `get_node_output` ran. -/
structure BState where
  freshId : Nat
  created : List (Nat × LayerSpec)
  graphExtracted : Bool
  initCalled : Bool
  materializeCount : Nat
deriving DecidableEq, Repr

/-- Construct a fresh keras layer object and log it. -/
def BState.newLayer (st : BState) (spec : LayerSpec) : Nat × BState :=
  (st.freshId,
   { st with freshId := st.freshId + 1, created := st.created ++ [(st.freshId, spec)] })

/-- Result of a build computation: `div` models the source not terminating
(fuel exhausted — used only by the scheduling loop, which has no bound in
the source), `err` models an uncaught Python exception. -/
inductive BRes (α : Type) where
  | div
  | err (msg : String)
  | ok (a : α)

/-- Shorthand for the feature width `K.int_shape(x)[-1]`. -/
def featOf : Shape → Nat
  | .r2 f => f
  | .r3 _ f => f

/-- Shorthand for the time length `K.int_shape(x)[1]` of a rank-3 tensor. -/
def timeOf : Shape → Nat
  | .r2 _ => 1
  | .r3 t _ => t

/-- Shape of a `Dense(u)` application (always defined, keras semantics). -/
def denseShape (u : Nat) : Shape → Shape
  | .r2 _ => .r2 u
  | .r3 t _ => .r3 t u

/-- Lines 170-177 and 184-186: walk a list of predecessor outputs and lift
every rank-2 tensor to rank 3 through a fresh
`Lambda(lambda x: expand_tile(x, axis=1))` layer; rank-3 tensors pass
through unchanged. -/
def liftInputs : List (Expr × Shape) → BState → List (Expr × Shape) × BState
  | [], st => ([], st)
  | (e, Shape.r3 t f) :: rest, st =>
    let (l, st2) := liftInputs rest st
    ((e, Shape.r3 t f) :: l, st2)
  | (e, Shape.r2 f) :: rest, st =>
    let (i, st1) := st.newLayer .lambdaExpandL
    let (l, st2) := liftInputs rest st1
    ((Expr.applyL i e, Shape.r3 1 f) :: l, st2)

/-- Lines 190-195: keep every predecessor whose feature width equals
`new_feature_shape`, project every other one through a fresh learned
`Dense(new_feature_shape)` layer. -/
def projectToWidth (newF : Nat) : List (Expr × Shape) → BState → List (Expr × Shape) × BState
  | [], st => ([], st)
  | (e, sh) :: rest, st =>
    if featOf sh = newF then
      let (l, st2) := projectToWidth newF rest st
      ((e, sh) :: l, st2)
    else
      let (i, st1) := st.newLayer (.denseL newF)
      let (l, st2) := projectToWidth newF rest st1
      ((Expr.applyL i e, denseShape newF sh) :: l, st2)

/-- Lines 181-196, the `except ValueError` fallback of the predecessor
combination: re-lift any remaining rank-2 tensors, project every
predecessor up to the maximum feature width, concatenate along the time
axis. -/
def fallbackCombine (inpList : List (Expr × Shape)) (st : BState) :
    BRes ((Expr × Shape) × BState) :=
  let (lifted, st1) := liftInputs inpList st
  let newF := (lifted.map (fun x => featOf x.2)).foldl max 0
  let (projected, st2) := projectToWidth newF lifted st1
  match concatAxis1Shape (projected.map (fun x => x.2)) with
  | .error e => .err e
  | .ok sh => .ok ((Expr.concatA1 (projected.map (fun x => x.1)), sh), st2)

/-- Lines 178-198: with several predecessors first try `Concatenate()`
along the feature axis and fall back on a `ValueError`; with one
predecessor use it directly (`inp_list[0]`). -/
def combinePreds (inpList : List (Expr × Shape)) (st : BState) :
    BRes ((Expr × Shape) × BState) :=
  if inpList.length > 1 then
    match concatLastShape (inpList.map (fun x => x.2)) with
    | .ok sh => .ok ((Expr.concatF (inpList.map (fun x => x.1)), sh), st)
    | .error _ => fallbackCombine inpList st
  else
    match inpList with
    | x :: _ => .ok (x, st)
    | [] => .err "IndexError: inp_list[0] on an empty list"

/-- The whole predecessor-reconciliation path of `get_node_output`
(lines 168-198): lift, then combine. -/
def reconcilePreds (xs : List (Expr × Shape)) (st : BState) :
    BRes ((Expr × Shape) × BState) :=
  let (lifted, st1) := liftInputs xs st
  combinePreds lifted st1

/-- Look up the recorded output of every listed node in `edges_outputs`
(a missing key is a Python `KeyError`). -/
def lookupOutputs (eos : List (Nat × (Expr × Shape))) :
    List Nat → Except String (List (Expr × Shape))
  | [] => .ok []
  | v :: rest =>
    match eos.lookup v with
    | none => .error "KeyError: node output missing from edges_outputs"
    | some x =>
      match lookupOutputs eos rest with
      | .error e => .error e
      | .ok l => .ok (x :: l)

/-- `get_node_output` (lines 166-214): reconcile the predecessor outputs
(or take the raw embedded stream input for a source), then apply the node's
shared layer object from `model_layers`; the self-attention node type uses
the two-phase `multiplicative_self_attention_get_output` call instead. -/
def getNodeOutput (modelLayers : List (Nat × LayerSpec)) (nodeId : Nat) (dg : DiGraph)
    (nodes : List NodeSpec) (eos : List (Nat × (Expr × Shape))) (inpOpt : Option (Expr × Shape))
    (st : BState) : BRes ((Expr × Shape) × BState) :=
  let st0 := { st with materializeCount := st.materializeCount + 1 }
  let inpRes : BRes ((Expr × Shape) × BState) :=
    match inpOpt with
    | some x => .ok (x, st0)
    | none =>
      match lookupOutputs eos (dg.predsOf nodeId) with
      | .error e => .err e
      | .ok xs => reconcilePreds xs st0
  match inpRes with
  | .div => .div
  | .err e => .err e
  | .ok ((e, sh), st2) =>
    match nodes[nodeId]? with
    | none => .err "KeyError: missing node spec"
    | some ns =>
      if ns.node_name = "SelfMultiplicativeAttention" then
        match modelLayers.lookup nodeId with
        | none => .err "KeyError: node layer missing from model_layers"
        | some _ =>
          match applyShape .attnL sh with
          | .error m => .err m
          | .ok sh2 => .ok ((Expr.applyAttn nodeId e, sh2), st2)
      else
        match modelLayers.lookup nodeId with
        | none => .err "KeyError: node layer missing from model_layers"
        | some spec =>
          match applyShape spec sh with
          | .error m => .err m
          | .ok sh2 => .ok ((Expr.applyL nodeId e, sh2), st2)

/-- One iteration of the layer-construction loop of `initialize_all_nodes`
(lines 221-245): isolates are skipped; `BiCuDNNLSTM` and
`SelfMultiplicativeAttention` are special-cased; every other node name is
looked up among the callable module globals, and a failed lookup (or a
non-callable global) raises `AttributeError("Node {} is not defined
correctly")` naming only the node. -/
def initNode (nodes : List NodeSpec) (isolates : List Nat) (i : Nat) :
    Except String (Option LayerSpec) :=
  if isolates.contains i then .ok none
  else
    match nodes[i]? with
    | none => .error "KeyError: missing node spec"
    | some ns =>
      if ns.node_name = "BiCuDNNLSTM" then
        match ns.kwargs.units with
        | some u => .ok (some (.biCuDNNL u))
        | none => .error "TypeError: CuDNNLSTM missing required argument units"
      else if ns.node_name = "SelfMultiplicativeAttention" then
        .ok (some .attnL)
      else if globalsCallables.contains ns.node_name then
        match constructByName ns.node_name ns.kwargs with
        | .error e => .error e
        | .ok spec => .ok (some spec)
      else .error ("Node " ++ toString i ++ " is not defined correctly")

/-- The fold of `initialize_all_nodes` over the node list, accumulating one
layer object per non-isolate node. -/
def initAllGo (nodes : List NodeSpec) (isolates : List Nat) :
    List Nat → List (Nat × LayerSpec) → Except String (List (Nat × LayerSpec))
  | [], acc => .ok acc
  | i :: rest, acc =>
    match initNode nodes isolates i with
    | .error e => .error e
    | .ok none => initAllGo nodes isolates rest acc
    | .ok (some spec) => initAllGo nodes isolates rest (acc ++ [(i, spec)])

/-- `initialize_all_nodes` (lines 216-247): extract the graph, classify the
nodes, then construct exactly one layer object per non-isolate node. -/
def initializeAllNodes (p : Params) : Except String (List (Nat × LayerSpec)) :=
  let dg := getDigraphFromBinaryMask p.nodes.length p.binary_mask
  initAllGo p.nodes (findSourcesAndSinks dg).2.2 (List.range p.nodes.length) []

/-- The node-initialization loop of one stream (lines 331-345): sources get
the raw embedded input, isolates are skipped (`unreal condition`), every
other node gets the reconciled predecessor outputs; each output overwrites
`edges_outputs[node]`. -/
def materializeSeq (modelLayers : List (Nat × LayerSpec)) (nodes : List NodeSpec)
    (dg : DiGraph) (srcs isolates : List Nat) (inp : Expr × Shape) :
    List Nat → List (Nat × (Expr × Shape)) → BState →
    BRes (List (Nat × (Expr × Shape)) × BState)
  | [], eos, st => .ok (eos, st)
  | v :: rest, eos, st =>
    if srcs.contains v then
      match getNodeOutput modelLayers v dg nodes eos (some inp) st with
      | .div => .div
      | .err e => .err e
      | .ok (out, st2) =>
        materializeSeq modelLayers nodes dg srcs isolates inp rest ((v, out) :: eos) st2
    else if isolates.contains v then
      materializeSeq modelLayers nodes dg srcs isolates inp rest eos st
    else
      match getNodeOutput modelLayers v dg nodes eos none st with
      | .div => .div
      | .err e => .err e
      | .ok (out, st2) =>
        materializeSeq modelLayers nodes dg srcs isolates inp rest ((v, out) :: eos) st2

/-- Lines 363-365: replace every rank-3 output by a fresh
`GlobalMaxPooling1D()` application. -/
def poolOutputs : List (Expr × Shape) → BState → List (Expr × Shape) × BState
  | [], st => ([], st)
  | (e, Shape.r3 _ f) :: rest, st =>
    let (i, st1) := st.newLayer .gmpL
    let (l, st2) := poolOutputs rest st1
    ((Expr.applyL i e, Shape.r2 f) :: l, st2)
  | (e, Shape.r2 f) :: rest, st =>
    let (l, st2) := poolOutputs rest st
    ((e, Shape.r2 f) :: l, st2)

/-- Lines 347-366: a single sink's output is used directly; several sink
outputs are concatenated along the feature axis, with a fallback that
max-pools every rank-3 output to rank 2 and concatenates along axis 1. -/
def combineSinks (sinksL : List Nat) (eos : List (Nat × (Expr × Shape))) (st : BState) :
    BRes ((Expr × Shape) × BState) :=
  match sinksL with
  | [s] =>
    match eos.lookup s with
    | none => .err "KeyError: node output missing from edges_outputs"
    | some out => .ok (out, st)
  | _ =>
    match lookupOutputs eos sinksL with
    | .error e => .err e
    | .ok outs =>
      match concatLastShape (outs.map (fun x => x.2)) with
      | .ok sh => .ok ((Expr.concatF (outs.map (fun x => x.1)), sh), st)
      | .error _ =>
        let (pooled, st1) := poolOutputs outs st
        match concatAxis1Shape (pooled.map (fun x => x.2)) with
        | .ok sh => .ok ((Expr.concatA1 (pooled.map (fun x => x.1)), sh), st1)
        | .error e => .err e

/-- Lines 368-369: a stream output still of rank 3 is max-pooled to rank 2;
the result is the stream's rank-2 vector with its feature width. -/
def fixRank (x : Expr × Shape) (st : BState) : (Expr × Nat) × BState :=
  match x with
  | (e, .r3 _ f) =>
    let (i, st1) := st.newLayer .gmpL
    ((Expr.applyL i e, f), st1)
  | (e, .r2 f) => ((e, f), st)

/-- The cross-stream reduction (lines 275-284 and 372-381): `Add()` and
`Multiply()` over all streams (their keras failures are not caught),
`Subtract()` inside `try/except ValueError: pass`, the difference appended
to the list before the sum and the product. -/
def combineStreams (fo : List (Expr × Nat)) : Except String (List (Expr × Nat)) :=
  let ws := fo.map (fun x => x.2)
  let es := fo.map (fun x => x.1)
  match elemMergeWidth ws with
  | .error e => .error e
  | .ok wSum =>
    match elemMergeWidth ws with
    | .error e => .error e
    | .ok wMul =>
      let withSub :=
        match subtractWidth ws with
        | .ok wSub => fo ++ [(Expr.subtE es, wSub)]
        | .error _ => fo
      .ok (withSub ++ [(Expr.addE es, wSum), (Expr.multE es, wMul)])

/-- Keras `Concatenate()` width rule specialised to rank-2 inputs. -/
def concatWidths (ws : List Nat) : Except String Nat :=
  match ws with
  | [] => .error "A Concatenate layer should be called on a list of at least 2 inputs"
  | [_] => .error "A Concatenate layer should be called on a list of at least 2 inputs"
  | w :: rest => .ok (rest.foldl (fun a b => a + b) w)

/-- Lines 286-289 and 383-386: concatenate the combined stream vectors,
project with a fresh `Dense(self.n_classes)` and apply the configured final
activation (default `"sigmoid"`). -/
def classificationHead (p : Params) (comps : List (Expr × Nat)) (st : BState) :
    BRes ((Expr × Nat) × BState) :=
  match concatWidths (comps.map (fun x => x.2)) with
  | .error e => .err e
  | .ok _ =>
    let (d, st1) := st.newLayer (.denseL p.n_classes)
    let act := p.last_layer_activation.getD "sigmoid"
    .ok ((Expr.activationE act (Expr.applyL d (Expr.concatF (comps.map (fun x => x.1)))),
          p.n_classes), st1)

/-- Lines 258-264: one `Input(shape=(text_size_i, embedding_size))` per
input stream. -/
def buildInputsGo (p : Params) : List Nat → Except String (List (Expr × Shape))
  | [] => .ok []
  | i :: rest =>
    match textSizeAt p.text_size i with
    | none => .error "IndexError: text_size list index out of range"
    | some ts =>
      match buildInputsGo p rest with
      | .error e => .error e
      | .ok l => .ok ((Expr.input i, Shape.r3 ts p.embedding_size) :: l)

/-- The input placeholders of the model, in stream order. -/
def buildInputs (p : Params) : Except String (List (Expr × Shape)) :=
  buildInputsGo p (List.range p.inLen)

/-- Lines 271-273: the degenerate per-stream pipeline — the one shared
`Dense(1)` layer `d`, then the shared `GlobalMaxPooling1D()` layer `g`. -/
def degenerateStreams (d g : Nat) : List (Expr × Shape) → Except String (List (Expr × Nat))
  | [] => .ok []
  | (e, sh) :: rest =>
    match applyShape (.denseL 1) sh with
    | .error m => .error m
    | .ok sh1 =>
      match applyShape .gmpL sh1 with
      | .error m => .error m
      | .ok (Shape.r3 _ _) => .error "unreachable: GlobalMaxPooling1D yields rank 2"
      | .ok (Shape.r2 f) =>
        match degenerateStreams d g rest with
        | .error e => .error e
        | .ok l => .ok ((Expr.applyL g (Expr.applyL d e), f) :: l)

/-- The per-stream loop body (lines 295-370): re-extract the graph,
re-classify the nodes, run the scheduling loop, materialize every scheduled
node, combine the sink outputs and pool the result to rank 2. -/
def buildStream (p : Params) (modelLayers : List (Nat × LayerSpec)) (fuel : Nat)
    (inp : Expr × Shape) (st : BState) : BRes ((Expr × Nat) × BState) :=
  let dg := getDigraphFromBinaryMask p.nodes.length p.binary_mask
  let st0 := { st with graphExtracted := true }
  let fss := findSourcesAndSinks dg
  match schedLoop dg fss.2.1 fuel [fss.1] with
  | none => .div
  | some layers =>
    match materializeSeq modelLayers p.nodes dg fss.1 fss.2.2 inp layers.flatten [] st0 with
    | .div => .div
    | .err e => .err e
    | .ok (eos, st1) =>
      match combineSinks fss.2.1 eos st1 with
      | .div => .div
      | .err e => .err e
      | .ok (out, st2) => .ok (fixRank out st2)

/-- The `for inp in inputs` loop (line 295), collecting `full_outputs`. -/
def buildStreamsGo (p : Params) (modelLayers : List (Nat × LayerSpec)) (fuel : Nat) :
    List (Expr × Shape) → BState → BRes (List (Expr × Nat) × BState)
  | [], st => .ok ([], st)
  | inp :: rest, st =>
    match buildStream p modelLayers fuel inp st with
    | .div => .div
    | .err e => .err e
    | .ok (out, st1) =>
      match buildStreamsGo p modelLayers fuel rest st1 with
      | .div => .div
      | .err e => .err e
      | .ok (outs, st2) => .ok (out :: outs, st2)

/-- The finished un-compiled model: its output tensor, the output width,
the per-node shared layer objects and the final build context. -/
structure BuiltModel where
  expr : Expr
  outWidth : Nat
  nodeLayers : List (Nat × LayerSpec)
  finalState : BState

/-- `evolution_many_inputs_classification_model` (lines 249-388): build the
inputs; with an all-zero mask build the degenerate architecture and return;
otherwise initialize all node layers once and run the per-stream loop; in
both cases finish with the cross-stream reduction and the classification
head. -/
def buildModel (fuel : Nat) (p : Params) : BRes BuiltModel :=
  match buildInputs p with
  | .error e => .err e
  | .ok ins =>
    let st0 : BState := ⟨p.nodes.length, [], false, false, 0⟩
    if maskSum p = 0 then
      let (d, st1) := st0.newLayer (.denseL 1)
      let (g, st2) := st1.newLayer .gmpL
      match degenerateStreams d g ins with
      | .error e => .err e
      | .ok fo =>
        match combineStreams fo with
        | .error e => .err e
        | .ok comps =>
          match classificationHead p comps st2 with
          | .div => .div
          | .err e => .err e
          | .ok ((e, w), st3) => .ok ⟨e, w, [], st3⟩
    else
      match initializeAllNodes p with
      | .error e => .err e
      | .ok modelLayers =>
        let st1 := { st0 with initCalled := true, graphExtracted := true }
        match buildStreamsGo p modelLayers fuel ins st1 with
        | .div => .div
        | .err e => .err e
        | .ok (fo, st2) =>
          match combineStreams fo with
          | .error e => .err e
          | .ok comps =>
            match classificationHead p comps st2 with
            | .div => .div
            | .err e => .err e
            | .ok ((e, w), st3) => .ok ⟨e, w, modelLayers, st3⟩

/-- Number of distinct trainable keras layer objects owned by a built
model: the shared node layers plus the builder-created layers. -/
def countTrainableLayers (m : BuiltModel) : Nat :=
  (m.nodeLayers.filter (fun x => x.2.trainable)).length +
  (m.finalState.created.filter (fun x => x.2.trainable)).length

/-- `some a` iff the result is the success value `a` (helper). -/
def BRes.isOk {α : Type} : BRes α → Bool
  | .ok _ => true
  | _ => false

/-- `true` iff the build diverged (helper). -/
def BRes.isDiv {α : Type} : BRes α → Bool
  | .div => true
  | _ => false

/-- The trainable-layer count of a build result (0 when the build did not
produce a model). -/
def trainableCountOf (r : BRes BuiltModel) : Nat :=
  match r with
  | .ok m => countTrainableLayers m
  | _ => 0

/-- The created-layer log of a build result (helper). -/
def createdOf (r : BRes BuiltModel) : List (Nat × LayerSpec) :=
  match r with
  | .ok m => m.finalState.created
  | _ => []

/-- The degenerate architecture as described by the spec (reference
definition for the refinement claim): for every input stream the one shared
`Dense(1)` projection followed by the shared global max-pooling over time,
then the cross-stream combination (sum and product always, the pairwise
difference exactly when there are two streams) and the classification head
with the configured final activation.  Layer identifiers follow the
creation order of the description: the shared dense projection, the shared
pooling layer, then the head projection. -/
def specDegenerate (p : Params) : Expr :=
  let d := p.nodes.length
  let g := p.nodes.length + 1
  let streams := (List.range p.inLen).map
    (fun i => Expr.applyL g (Expr.applyL d (Expr.input i)))
  let comps := streams ++ (if p.inLen = 2 then [Expr.subtE streams] else [])
    ++ [Expr.addE streams, Expr.multE streams]
  Expr.activationE (p.last_layer_activation.getD "sigmoid")
    (Expr.applyL (p.nodes.length + 2) (Expr.concatF comps))

/-- A Python value passed positionally to `infer_on_batch`: `None`, a
list/tuple of values, or a string. -/
inductive PyObj where
  | noneV
  | items (xs : List PyObj)
  | strV (s : String)

/-- Python truthiness of such a value (`if labels:` on line 139): `None`
and empty containers are falsy. -/
def truthy : PyObj → Bool
  | .noneV => false
  | .items xs => !xs.isEmpty
  | .strV s => !s.isEmpty

/-- Python subscription `x[i]`: lists index their elements, strings their
characters, `None` is not subscriptable. -/
def pyIndex : PyObj → Nat → Except String PyObj
  | .items xs, i =>
    match xs[i]? with
    | some x => .ok x
    | none => .error "IndexError: list index out of range"
  | .strV s, i =>
    match s.data[i]? with
    | some c => .ok (.strV (String.mk [c]))
    | none => .error "IndexError: string index out of range"
  | .noneV, _ => .error "TypeError: NoneType is not subscriptable"

/-- The feature loop of `infer_on_batch` (lines 132-137): for every stream
index `i` below `len(self.opt["in"])` the source evaluates `texts[i][0]`
(to dispatch on its type) and embeds the stream; the embedding itself is an
external collaborator and is modelled as succeeding. -/
def featurizeGo (texts : PyObj) : List Nat → Except String Unit
  | [] => .ok ()
  | i :: rest =>
    match pyIndex texts i with
    | .error e => .error e
    | .ok xi =>
      match pyIndex xi 0 with
      | .error e => .error e
      | .ok _ => featurizeGo texts rest

/-- The two observable success outcomes of `infer_on_batch`: batch metrics
(`self.model.test_on_batch`, labels path) or the raw prediction matrix
(`self.model.predict`). -/
inductive InferOutcome where
  | metricsOut
  | predictionsOut
deriving DecidableEq, Repr

/-- `infer_on_batch` (lines 112-145): with more than one positional
argument the last is taken as labels and the rest as the streams; with
exactly one argument that argument is the tuple of streams and labels are
`None`; with none a `ValueError` is raised.  After featurizing, a truthy
labels value selects the metrics path, otherwise predictions. -/
def inferOnBatch (nStreams : Nat) (args : List PyObj) : Except String InferOutcome :=
  if args.length > 1 then
    let labels := args.getLastD .noneV
    match featurizeGo (PyObj.items args.dropLast) (List.range nStreams) with
    | .error e => .error e
    | .ok _ => if truthy labels then .ok .metricsOut else .ok .predictionsOut
  else
    match args with
    | [t] =>
      match featurizeGo t (List.range nStreams) with
      | .error e => .error e
      | .ok _ => .ok .predictionsOut
    | _ => .error "Nothing to infer in infer_on_batch"

/-- `texts2vec` (lines 62-80): truncate every sentence to its first
`text_size` tokens (the per-stream size when `text_size` is a list), embed
the truncated sentences, then left-pad every embedded sentence with zero
vectors of width `embedding_size` up to `text_size`.  The fasttext batch
embedder is an external collaborator, modelled from the spec as the
length-preserving per-token embedding `embed`. -/
def texts2vecM (embed : String → List Int) (embSize : Nat) (tcfg : TSize) (i : Nat)
    (sentences : List (List String)) : Except String (List (List (List Int))) :=
  let pad := List.replicate embSize (0 : Int)
  match textSizeAt tcfg i with
  | none => .error "IndexError: text_size list index out of range"
  | some ts =>
    let emb := (sentences.map (fun sen => sen.take ts)).map (fun sen => sen.map embed)
    .ok (emb.map (fun toks => List.replicate (ts - toks.length) pad ++ toks))

/-- The stored adjacency mask of `self.opt["binary_mask"]`, which is either
a `np.ndarray` (as installed by `__init__`, line 58) or a plain nested list
(as rewritten by `save`, line 403). -/
inductive MaskStore where
  | asArray (m : List (List Nat))
  | asList (m : List (List Nat))
deriving DecidableEq, Repr

/-- The numeric entries of the stored mask, independent of representation. -/
def maskEntries : MaskStore → List (List Nat)
  | .asArray m => m
  | .asList m => m

/-- The architecture descriptor fields of `self.opt` relevant to `save`. -/
structure OptStore where
  binary_mask : MaskStore
  nodes : List NodeSpec
  n_classes : Nat
deriving DecidableEq, Repr

/-- `save` (lines 390-406): when the stored mask is not already a list it
is replaced in place by `self.opt["binary_mask"].tolist()`; every other
descriptor field is untouched (the weight/JSON persistence of
`super().save` is an external collaborator). -/
def saveOpt (o : OptStore) : OptStore :=
  match o.binary_mask with
  | .asList _ => o
  | .asArray m => { o with binary_mask := .asList m }

/-- `__init__` line 58: `self.opt["binary_mask"] = np.array(...)`. -/
def initOpt (o : OptStore) : OptStore :=
  { o with binary_mask := .asArray (maskEntries o.binary_mask) }

/-- A `Dense(units=3)` node spec (example data). -/
def denseNode3 : NodeSpec :=
  ⟨"Dense", "layer", 0, ⟨some 3, false, none, none, none⟩⟩

/-- Example for claim C1: three nodes, edges `1 → 2`, `2 → 0` and `2 → 1`,
so nodes 1 and 2 form a cycle feeding the only sink 0 and there is no
source; the mask is non-zero, so the builder enters the scheduling loop. -/
def c1Params : Params :=
  ⟨1, .single 5, 2, [denseNode3, denseNode3, denseNode3],
   [[0, 0, 0], [0, 0, 1], [1, 1, 0]], 2, none⟩

/-- Example for claim C3: the mask `0 → 2`, `1 → 2` (two sources feeding
one sink through two in-edges). -/
def diaDg : DiGraph :=
  getDigraphFromBinaryMask 3 [[0, 0, 1], [0, 0, 1], [0, 0, 0]]

/-- Example for claim C2 (counterexample): one input stream, all-zero mask. -/
def c2OneStream : Params :=
  ⟨1, .single 5, 2, [denseNode3], [[0]], 3, none⟩

/-- Example for claim C2 (witness): two input streams, all-zero mask. -/
def c2TwoStreams : Params :=
  ⟨2, .single 5, 2, [denseNode3], [[0]], 3, none⟩

/-- Node specs for claim C7: an `LSTM(6, return_sequences=True)` source, an
`LSTM(4)` source, and a `Dense(5)` sink fed by both, whose two predecessor
outputs have mismatching ranks and widths. -/
def c7Nodes : List NodeSpec :=
  [⟨"LSTM", "layer", 0, ⟨some 6, true, none, none, none⟩⟩,
   ⟨"LSTM", "layer", 0, ⟨some 4, false, none, none, none⟩⟩,
   ⟨"Dense", "layer", 0, ⟨some 5, false, none, none, none⟩⟩]

/-- Example for claim C7, parametrized by the number of input streams. -/
def c7Params (streams : Nat) : Params :=
  ⟨streams, .single 7, 3, c7Nodes, [[0, 0, 1], [0, 0, 1], [0, 0, 0]], 2, none⟩

/-- Example for claim C6: node 1 has the unknown type name `"Foo"`. -/
def c6Params : Params :=
  ⟨1, .single 5, 2, [denseNode3, ⟨"Foo", "layer", 0, KwArgs.none0⟩],
   [[0, 1], [0, 0]], 2, none⟩

/-- The rank-2 → rank-3 lift described by the spec: a synthetic time axis
of length 1. -/
def liftShape : Shape → Shape
  | .r2 f => .r3 1 f
  | .r3 t f => .r3 t f

/-- Combination of several already-lifted predecessor shapes as the spec
describes it: concatenate along the feature axis when the time lengths
agree, otherwise project everything to the maximum feature width and
concatenate along the time axis. -/
def combinedShape (ss : List Shape) : Shape :=
  let ts := ss.map timeOf
  let fs := ss.map featOf
  if ts.all (fun t => t == ts.headD 0) then .r3 (ts.headD 0) fs.sum
  else .r3 ts.sum (fs.foldl max 0)

/-- The reconciled input shape of a non-source node as the spec describes
it (reference definition for claim C4): lift every rank-2 predecessor; a
single predecessor is used directly; several predecessors are combined as
in `combinedShape`. -/
def c4ExpectedShape (ss : List Shape) : Shape :=
  match ss with
  | [s] => liftShape s
  | _ => combinedShape (ss.map liftShape)

/-- The isolates of the graph extracted from a parameter set. -/
def isolatesOf (p : Params) : List Nat :=
  (findSourcesAndSinks (getDigraphFromBinaryMask p.nodes.length p.binary_mask)).2.2

/-- `flat` schedules every node only after all of its predecessors: every
position holding `v` is preceded by a position holding each predecessor
of `v`. -/
def predsBefore (dg : DiGraph) (flat : List Nat) : Prop :=
  ∀ (p : Nat) (v : Nat), flat[p]? = some v →
    ∀ u ∈ dg.predsOf v, ∃ q : Nat, q < p ∧ flat[q]? = some u

/-- Example for claim C8: a descriptor whose mask is still the
`np.ndarray` installed by `__init__`. -/
def c8Opt : OptStore := ⟨.asArray [[0, 1], [0, 0]], [denseNode3, denseNode3], 2⟩

/-- Example for claim C9: two positional arguments whose last is `None`
(labels explicitly absent). -/
def c9FalsyArgs : List PyObj := [PyObj.items [PyObj.items [PyObj.strV "a"]], PyObj.noneV]

/-- Example for claim C9: a two-stream model called with exactly its two
streams and no labels. -/
def c9TwoStreamArgs : List PyObj := [PyObj.items [PyObj.strV "a"], PyObj.items [PyObj.strV "b"]]

/-- The non-isolate nodes of a parameter set, in node order. -/
def nonIsolates (p : Params) : List Nat :=
  (List.range p.nodes.length).filter (fun i => !(isolatesOf p).contains i)

/-- The component list produced by the cross-stream reduction on the
degenerate per-stream outputs (proof abbreviation). -/
def degenComps (L : Nat) (ins : List (Expr × Shape)) : List (Expr × Nat) :=
  let fo := ins.map (fun x => (Expr.applyL (L + 1) (Expr.applyL L x.1), 1))
  fo ++ (if fo.length = 2 then [(Expr.subtE (fo.map Prod.fst), 1)] else [])
    ++ [(Expr.addE (fo.map Prod.fst), 1), (Expr.multE (fo.map Prod.fst), 1)]

/-- The layer kinds that the per-stream materialization may create on its
own: rank-lift `Lambda`s, projection `Dense`s from the shape-reconciliation
fallback, and `GlobalMaxPooling1D` rank fixes — never a node-catalog layer,
so the shared per-node layer objects are not re-instantiated per stream. -/
def isStreamScratchLayer (l : LayerSpec) : Prop :=
  l = LayerSpec.lambdaExpandL ∨ (∃ u, l = LayerSpec.denseL u) ∨ l = LayerSpec.gmpL

def c7WitnessParams : Params :=
  ⟨1, .single 7, 3,
   [⟨"LSTM", "layer", 0, ⟨some 6, true, none, none, none⟩⟩,
    ⟨"LSTM", "layer", 0, ⟨some 4, false, none, none, none⟩⟩],
   [[0, 1], [0, 0]], 2, none⟩

/-! ## Theorems -/

/-- C8 counterexample: the node specs and mask are supplied at construction
as an `np.ndarray`-backed descriptor, and `save()` does not leave
`opt["binary_mask"]` unchanged — it replaces the array by a plain list in
place, so the stored descriptor after `save` differs from the one before. -/
theorem c8_save_rewrites_mask_store :
    saveOpt c8Opt ≠ c8Opt ∧
    (saveOpt c8Opt).binary_mask = MaskStore.asList [[0, 1], [0, 0]] ∧
    c8Opt.binary_mask = MaskStore.asArray [[0, 1], [0, 0]] :=
  ⟨by decide, rfl, rfl⟩

/-- C8 (amended): `save` rewrites only the representation of the stored
mask (`np.ndarray` → nested list); its numeric entries and every other
descriptor field are preserved, and a second `save` changes nothing more. -/
theorem c8_amended_save_preserves_descriptor_values (o : OptStore) :
    maskEntries (saveOpt o).binary_mask = maskEntries o.binary_mask ∧
    (saveOpt o).nodes = o.nodes ∧
    (saveOpt o).n_classes = o.n_classes ∧
    saveOpt (saveOpt o) = saveOpt o := by
  cases o with
  | mk bm nodes nc => cases bm <;> simp [saveOpt, maskEntries]

/-- C10: `texts2vec` truncates every sentence of stream `i` to its first
`text_size` tokens (per-stream size when configured as a list), embeds
them, and left-pads with zero vectors of width `embedding_size`, so every
returned row has exactly `text_size` vectors with the embedded original
tokens right-aligned. -/
theorem c10_texts2vec_truncates_then_leftpads (embed : String → List Int) (embSize : Nat)
    (tcfg : TSize) (i ts : Nat) (sentences : List (List String))
    (h : textSizeAt tcfg i = some ts) :
    ∃ rows, texts2vecM embed embSize tcfg i sentences = .ok rows ∧
      rows.length = sentences.length ∧
      ∀ (k : Nat) (sen : List String), sentences[k]? = some sen →
        rows[k]? = some (List.replicate (ts - (sen.take ts).length) (List.replicate embSize 0)
          ++ (sen.take ts).map embed) ∧
        (List.replicate (ts - (sen.take ts).length) (List.replicate embSize (0 : Int))
          ++ (sen.take ts).map embed).length = ts := by
  have hrows : texts2vecM embed embSize tcfg i sentences =
      .ok (sentences.map (fun sen =>
        List.replicate (ts - (sen.take ts).length) (List.replicate embSize 0)
          ++ (sen.take ts).map embed)) := by
    simp only [texts2vecM, h]
    congr 1
    simp [List.map_map, Function.comp_def]
  refine ⟨_, hrows, by simp, ?_⟩
  intro k sen hk
  refine ⟨by simp [hk], ?_⟩
  have hm : (sen.take ts).length ≤ ts := by
    simp [List.length_take]
  simp only [List.length_append, List.length_replicate, List.length_map]
  omega

/-- C10 witness at a concrete input. -/
theorem c10_texts2vec_witness :
    textSizeAt (TSize.single 3) 0 = some 3 ∧
    (∃ rows, texts2vecM (fun s => [(s.length : Int)]) 1 (TSize.single 3) 0 [["a", "b"]] = .ok rows ∧
      rows.length = [["a", "b"]].length ∧
      ∀ (k : Nat) (sen : List String), [["a", "b"]][k]? = some sen →
        rows[k]? = some (List.replicate (3 - (sen.take 3).length) (List.replicate 1 0)
          ++ (sen.take 3).map (fun s => [(s.length : Int)])) ∧
        (List.replicate (3 - (sen.take 3).length) (List.replicate 1 (0 : Int))
          ++ (sen.take 3).map (fun s => [(s.length : Int)])).length = 3) :=
  ⟨rfl, c10_texts2vec_truncates_then_leftpads (fun s => [(s.length : Int)]) 1
    (TSize.single 3) 0 3 [["a", "b"]] rfl⟩

/-- Helper: the dispatch `ValueError` message never comes out of `pyIndex`. -/
theorem pyIndex_error_msg (x : PyObj) (i : Nat) (e : String)
    (h : pyIndex x i = .error e) : e ≠ "Nothing to infer in infer_on_batch" := by
  cases x with
  | noneV =>
    simp [pyIndex] at h
    subst h
    decide
  | items xs =>
    cases hx : xs[i]? <;> simp [pyIndex, hx] at h
    subst h
    decide
  | strV s =>
    cases hx : s.data[i]? <;> simp [pyIndex, hx] at h
    subst h
    decide

/-- Helper: the feature loop never raises the dispatch `ValueError`. -/
theorem featurizeGo_error_msg (t : PyObj) :
    ∀ l : List Nat, featurizeGo t l ≠ .error "Nothing to infer in infer_on_batch" := by
  intro l
  induction l with
  | nil => simp [featurizeGo]
  | cons i rest ih =>
    cases h1 : pyIndex t i with
    | error e =>
      simp only [featurizeGo, h1]
      simpa using pyIndex_error_msg t i e h1
    | ok xi =>
      cases h2 : pyIndex xi 0 with
      | error e =>
        simp only [featurizeGo, h1, h2]
        simpa using pyIndex_error_msg xi 0 e h2
      | ok u =>
        simp only [featurizeGo, h1, h2]
        exact ih

/-- C9 counterexample: with two positional arguments whose last is `None`
(falsy), `infer_on_batch` returns raw predictions, not batch metrics; and a
two-stream model called with exactly its two streams raises `IndexError`
instead of returning metrics. -/
theorem c9_more_args_not_always_metrics :
    c9FalsyArgs.length > 1 ∧
    inferOnBatch 1 c9FalsyArgs = .ok .predictionsOut ∧
    InferOutcome.predictionsOut ≠ InferOutcome.metricsOut ∧
    c9TwoStreamArgs.length > 1 ∧
    inferOnBatch 2 c9TwoStreamArgs = .error "IndexError: list index out of range" :=
  ⟨by decide, rfl, by decide, by decide, rfl⟩

/-- C9 (amended): `infer_on_batch` raises the `"Nothing to infer"`
`ValueError` exactly on zero positional arguments; with more than one
argument the last is taken as labels, but metrics are returned only when
that argument is truthy (otherwise the raw predictions of the remaining
arguments are returned), and the feature loop over `len(opt["in"])` streams
may itself raise; with exactly one argument that argument is the stream
tuple and predictions are returned. -/
theorem c9_amended_dispatch (n : Nat) (args : List PyObj) :
    (inferOnBatch n [] = .error "Nothing to infer in infer_on_batch") ∧
    (args ≠ [] → inferOnBatch n args ≠ .error "Nothing to infer in infer_on_batch") ∧
    (args.length > 1 →
      featurizeGo (PyObj.items args.dropLast) (List.range n) = .ok () →
      inferOnBatch n args =
        .ok (if truthy (args.getLastD .noneV) then .metricsOut else .predictionsOut)) ∧
    (∀ t, args = [t] → featurizeGo t (List.range n) = .ok () →
      inferOnBatch n args = .ok .predictionsOut) := by
  refine ⟨rfl, ?_, ?_, ?_⟩
  · intro hne
    by_cases hlen : args.length > 1
    · simp only [inferOnBatch, if_pos hlen]
      cases hf : featurizeGo (PyObj.items args.dropLast) (List.range n) with
      | error e =>
        have h2 := featurizeGo_error_msg (PyObj.items args.dropLast) (List.range n)
        rw [hf] at h2
        simpa using h2
      | ok u =>
        cases u
        simp only [hf]
        split <;> simp
    · rcases args with _ | ⟨a, _ | ⟨b, rest⟩⟩
      · exact absurd rfl hne
      · simp only [inferOnBatch]
        rw [if_neg (by simp)]
        cases hf : featurizeGo a (List.range n) with
        | error e =>
          have h2 := featurizeGo_error_msg a (List.range n)
          rw [hf] at h2
          simpa using h2
        | ok u => cases u; simp
      · exact (hlen (by simp only [List.length_cons]; omega)).elim
  · intro hlen hf
    simp only [inferOnBatch, if_pos hlen, hf]
    split <;> rfl
  · intro t ht hf
    subst ht
    simp [inferOnBatch, hf]

/-- C9 witness for the amended dispatch at a concrete input. -/
theorem c9_amended_dispatch_witness :
    ([PyObj.items [PyObj.items [PyObj.strV "a"]], PyObj.items [PyObj.strV "b"]] : List PyObj).length > 1 ∧
    featurizeGo (PyObj.items [PyObj.items [PyObj.strV "a"]]) (List.range 1) = .ok () ∧
    inferOnBatch 1 [PyObj.items [PyObj.items [PyObj.strV "a"]], PyObj.items [PyObj.strV "b"]] =
      .ok .metricsOut := by
  refine ⟨by decide, rfl, ?_⟩
  have h := (c9_amended_dispatch 1
    [PyObj.items [PyObj.items [PyObj.strV "a"]], PyObj.items [PyObj.strV "b"]]).2.2.1
    (by decide) rfl
  simpa [truthy] using h

/-- Helper: split `List.range n` at any `i < n`. -/
theorem range_split_at (i n : Nat) (h : i < n) :
    ∃ l2, List.range n = List.range i ++ i :: l2 := by
  induction n with
  | zero => omega
  | succ m ih =>
    rcases Nat.lt_succ_iff_lt_or_eq.mp h with h2 | h2
    · obtain ⟨l2, hl2⟩ := ih h2
      refine ⟨l2 ++ [m], ?_⟩
      rw [List.range_succ, hl2]
      simp
    · subst h2
      exact ⟨[], by rw [List.range_succ]⟩

/-- Helper: the layer-construction fold fails with the error of the first
failing node once every earlier node succeeded. -/
theorem initAllGo_append_err (nodes : List NodeSpec) (iso : List Nat) (e : String) :
    ∀ (l1 : List Nat) (i : Nat) (l2 : List Nat) (acc : List (Nat × LayerSpec)),
      (∀ j ∈ l1, ∃ r, initNode nodes iso j = .ok r) →
      initNode nodes iso i = .error e →
      initAllGo nodes iso (l1 ++ i :: l2) acc = .error e := by
  intro l1
  induction l1 with
  | nil =>
    intro i l2 acc _ herr
    simp [initAllGo, herr]
  | cons j l1 ih =>
    intro i l2 acc hok herr
    obtain ⟨r, hr⟩ := hok j (by simp)
    cases r with
    | none =>
      simp only [List.cons_append, initAllGo, hr]
      exact ih i l2 acc (fun x hx => hok x (by simp [hx])) herr
    | some spec =>
      simp only [List.cons_append, initAllGo, hr]
      exact ih i l2 (acc ++ [(j, spec)]) (fun x hx => hok x (by simp [hx])) herr

/-- C6 counterexample: for the unknown node type `"Foo"` on node 1,
`initialize_all_nodes` fails with `AttributeError("Node 1 is not defined
correctly")` — the message names the node but does not contain the
unrecognized type name. -/
theorem c6_error_omits_type_name :
    initializeAllNodes c6Params = .error "Node 1 is not defined correctly" ∧
    ¬ ("Foo".data <:+: "Node 1 is not defined correctly".data) :=
  ⟨rfl, by decide⟩

/-- C6 (amended): when a non-isolate node's type name is not one of the two
special-cased names and does not resolve to a callable module global, and
every node before it initializes, model construction fails in
`initialize_all_nodes` (before any layer is applied, hence before any
weights are built) with an `AttributeError` that names the offending node —
but not the unrecognized type. -/
theorem c6_amended_unknown_type_fails_naming_node (p : Params) (i : Nat) (ns : NodeSpec)
    (hns : p.nodes[i]? = some ns)
    (h1 : ns.node_name ≠ "BiCuDNNLSTM")
    (h2 : ns.node_name ≠ "SelfMultiplicativeAttention")
    (h3 : ns.node_name ∉ globalsCallables)
    (h4 : i ∉ isolatesOf p)
    (hprev : ∀ j, j < i → ∃ r, initNode p.nodes (isolatesOf p) j = .ok r) :
    initializeAllNodes p = .error ("Node " ++ toString i ++ " is not defined correctly") := by
  have hgetElem : i < p.nodes.length := by
    rcases List.getElem?_eq_some_iff.mp hns with ⟨hlt, _⟩
    exact hlt
  have herr : initNode p.nodes (isolatesOf p) i =
      .error ("Node " ++ toString i ++ " is not defined correctly") := by
    simp [initNode, h4, hns, h1, h2, h3]
  obtain ⟨l2, hsplit⟩ := range_split_at i p.nodes.length hgetElem
  have hrun : initializeAllNodes p =
      initAllGo p.nodes (isolatesOf p) (List.range p.nodes.length) [] := rfl
  rw [hrun, hsplit]
  exact initAllGo_append_err p.nodes (isolatesOf p) _ (List.range i) i l2 []
    (fun j hj => hprev j (List.mem_range.mp hj)) herr

/-- C6 witness for the amended failure at a concrete input. -/
theorem c6_amended_witness :
    initializeAllNodes c6Params = .error ("Node " ++ toString 1 ++ " is not defined correctly") := by
  refine c6_amended_unknown_type_fails_naming_node c6Params 1 ⟨"Foo", "layer", 0, KwArgs.none0⟩
    rfl (by decide) (by decide) (by decide) (by decide) ?_
  intro j hj
  have hj0 : j = 0 := by omega
  subst hj0
  exact ⟨some (.denseL 3), rfl⟩

/-- Helper: the elementwise width fold on a constant list stays at `w`. -/
theorem foldl_elemStep_const (w : Nat) :
    ∀ l : List Nat, (∀ x ∈ l, x = w) → l.foldl elemStep (.ok w) = .ok w := by
  intro l
  induction l with
  | nil => intro _; rfl
  | cons b l ih =>
    intro hall
    have hb := hall b (by simp)
    subst hb
    have hstep : elemStep (.ok b) b = .ok b := by simp [elemStep, broadcast2]
    simp only [List.foldl_cons, hstep]
    exact ih (fun x hx => hall x (by simp [hx]))

/-- Helper: `Add()`/`Multiply()` on at least two equal-width inputs. -/
theorem elemMergeWidth_const (w : Nat) (ws : List Nat) (hlen : 2 ≤ ws.length)
    (hall : ∀ x ∈ ws, x = w) : elemMergeWidth ws = .ok w := by
  match ws, hlen with
  | a :: b :: rest, _ =>
    have ha := hall a (by simp)
    subst ha
    simp only [elemMergeWidth]
    exact foldl_elemStep_const a (b :: rest) (fun x hx => hall x (by simp at hx; simp [hx]))

/-- Helper: `Subtract()` on equal-width inputs succeeds exactly on two
inputs. -/
theorem subtractWidth_const (w : Nat) (ws : List Nat) (hall : ∀ x ∈ ws, x = w) :
    subtractWidth ws =
      if ws.length = 2 then .ok w
      else .error "A Subtract layer should be called on exactly 2 inputs" := by
  match ws with
  | [] => rfl
  | [a] => rfl
  | [a, b] =>
    have ha := hall a (by simp)
    have hb := hall b (by simp)
    subst ha
    subst hb
    simp [subtractWidth, broadcast2]
  | a :: b :: c :: rest =>
    simp [subtractWidth, List.length_cons]

/-- C5 counterexample: on two width-4 stream vectors the reduction appends
the difference before the sum and the product, so the concatenation order
is `[streams..., difference, sum, product]` — not the claimed
`[streams..., sum, product, difference]`. -/
theorem c5_difference_precedes_sum_product :
    combineStreams [(Expr.input 0, 4), (Expr.input 1, 4)] =
      .ok [(Expr.input 0, 4), (Expr.input 1, 4),
           (Expr.subtE [Expr.input 0, Expr.input 1], 4),
           (Expr.addE [Expr.input 0, Expr.input 1], 4),
           (Expr.multE [Expr.input 0, Expr.input 1], 4)] ∧
    ([(Expr.input 0, 4), (Expr.input 1, 4),
      (Expr.subtE [Expr.input 0, Expr.input 1], 4),
      (Expr.addE [Expr.input 0, Expr.input 1], 4),
      (Expr.multE [Expr.input 0, Expr.input 1], 4)] : List (Expr × Nat)) ≠
    [(Expr.input 0, 4), (Expr.input 1, 4),
     (Expr.addE [Expr.input 0, Expr.input 1], 4),
     (Expr.multE [Expr.input 0, Expr.input 1], 4),
     (Expr.subtE [Expr.input 0, Expr.input 1], 4)] :=
  ⟨rfl, by simp⟩

/-- C5 (amended): on at least two equal-width stream vectors the reduction
always computes the elementwise sum and product, attempts the difference
and keeps it exactly when there are two streams (otherwise the keras
`ValueError` is swallowed and the difference is omitted), and concatenates
in the order `[stream vectors..., difference if computed, sum, product]`. -/
theorem c5_amended_combine_order (fo : List (Expr × Nat)) (w : Nat)
    (hw : ∀ x ∈ fo, x.2 = w) (hlen : 2 ≤ fo.length) :
    combineStreams fo = .ok (fo
      ++ (if fo.length = 2 then [(Expr.subtE (fo.map Prod.fst), w)] else [])
      ++ [(Expr.addE (fo.map Prod.fst), w), (Expr.multE (fo.map Prod.fst), w)]) := by
  have hws : ∀ x ∈ fo.map Prod.snd, x = w := by
    intro x hx
    rcases List.mem_map.mp hx with ⟨y, hy, rfl⟩
    exact hw y hy
  have hlen2 : 2 ≤ (fo.map Prod.snd).length := by simpa using hlen
  have hAdd := elemMergeWidth_const w (fo.map Prod.snd) hlen2 hws
  have hSub := subtractWidth_const w (fo.map Prod.snd) hws
  simp only [combineStreams, hAdd, hSub, List.length_map]
  by_cases h2 : fo.length = 2
  · simp [h2]
  · simp [h2]

/-- C5 witness for the amended reduction at a concrete three-stream input
(difference omitted without failing). -/
theorem c5_amended_combine_order_witness :
    (∀ x ∈ ([(Expr.input 0, 2), (Expr.input 1, 2), (Expr.input 2, 2)] : List (Expr × Nat)),
      x.2 = 2) ∧
    combineStreams [(Expr.input 0, 2), (Expr.input 1, 2), (Expr.input 2, 2)] =
      .ok [(Expr.input 0, 2), (Expr.input 1, 2), (Expr.input 2, 2),
           (Expr.addE [Expr.input 0, Expr.input 1, Expr.input 2], 2),
           (Expr.multE [Expr.input 0, Expr.input 1, Expr.input 2], 2)] := by
  have hmem : ∀ x ∈ ([(Expr.input 0, 2), (Expr.input 1, 2), (Expr.input 2, 2)] :
      List (Expr × Nat)), x.2 = 2 := by
    intro x hx
    simp only [List.mem_cons, List.not_mem_nil, or_false] at hx
    rcases hx with rfl | rfl | rfl <;> rfl
  refine ⟨hmem, ?_⟩
  have h := c5_amended_combine_order
    [(Expr.input 0, 2), (Expr.input 1, 2), (Expr.input 2, 2)] 2 hmem (by simp)
  simpa using h

/-- Helper: once the scheduled set is empty the loop can never add a node,
yet a nonempty sink set keeps the stop condition false — the scheduling
loop runs out of any fuel, i.e. the source loops forever. -/
theorem schedLoop_stalled (dg : DiGraph) (sinksL : List Nat) (s0 : Nat) (hs : s0 ∈ sinksL) :
    ∀ (fuel : Nat) (seq : List (List Nat)), seq.flatten = [] →
      schedLoop dg sinksL fuel seq = none := by
  intro fuel
  induction fuel with
  | zero => intro seq _; rfl
  | succ n ih =>
    intro seq h
    have hcond : sinksL.all (fun s => seq.flatten.contains s) = false := by
      cases hall : sinksL.all (fun s => seq.flatten.contains s) with
      | false => rfl
      | true =>
        have h2 := List.all_eq_true.mp hall s0 hs
        rw [h] at h2
        simp at h2
    have hlast : seq.getLastD [] = [] := by
      cases hseq : seq.getLast? with
      | none => simp [List.getLastD_eq_getLast?, hseq]
      | some l =>
        have hmem : l ∈ seq := by
          rcases List.mem_getLast?_eq_getLast (show l ∈ seq.getLast? by rw [hseq]; exact rfl)
            with ⟨hne, rfl⟩
          exact List.getLast_mem hne
        have hl : l = [] := List.flatten_eq_nil_iff.mp h l hmem
        simp [List.getLastD_eq_getLast?, hseq, hl]
    simp only [schedLoop, hcond, Bool.false_eq_true, if_false]
    apply ih
    rw [hlast]
    simp [h, nextNodes]

/-- Helper: a source has no predecessors. -/
theorem sources_preds_nil (dg : DiGraph) (v : Nat)
    (hv : v ∈ (findSourcesAndSinks dg).1) : dg.predsOf v = [] := by
  have h2 := (List.mem_filter.mp hv).2
  simp only [Bool.and_eq_true, beq_iff_eq] at h2
  exact List.length_eq_zero.mp h2.1

/-- Helper: every node appended by one scheduling iteration has all its
predecessors among the already-scheduled nodes. -/
theorem nextNodes_preds_scheduled (dg : DiGraph) (scheduled lastLayer : List Nat) :
    ∀ v ∈ nextNodes dg scheduled lastLayer, ∀ u ∈ dg.predsOf v, u ∈ scheduled := by
  intro v hv u hu
  rcases List.mem_flatMap.mp hv with ⟨a, _, hv2⟩
  have hall := (List.mem_filter.mp hv2).2
  have h3 := List.all_eq_true.mp hall u hu
  simpa using h3

/-- Helper: appending a layer whose nodes have all predecessors in the old
flat sequence preserves the scheduling order property. -/
theorem predsBefore_append (dg : DiGraph) (flat nn : List Nat)
    (h1 : predsBefore dg flat)
    (h2 : ∀ v ∈ nn, ∀ u ∈ dg.predsOf v, u ∈ flat) :
    predsBefore dg (flat ++ nn) := by
  intro p v hp u hu
  by_cases hlt : p < flat.length
  · rw [List.getElem?_append_left hlt] at hp
    obtain ⟨q, hq, hq2⟩ := h1 p v hp u hu
    have hqlt : q < flat.length := (List.getElem?_eq_some_iff.mp hq2).1
    exact ⟨q, hq, by rw [List.getElem?_append_left hqlt]; exact hq2⟩
  · push_neg at hlt
    rw [List.getElem?_append_right hlt] at hp
    have hv : v ∈ nn := by
      rcases List.getElem?_eq_some_iff.mp hp with ⟨hlt2, rfl⟩
      exact List.getElem_mem hlt2
    obtain ⟨q, hq⟩ := List.mem_iff_getElem?.mp (h2 v hv u hu)
    have hqlt : q < flat.length := (List.getElem?_eq_some_iff.mp hq).1
    exact ⟨q, lt_of_lt_of_le hqlt hlt,
      by rw [List.getElem?_append_left hqlt]; exact hq⟩

/-- Helper: the scheduling loop preserves the order property of the
flattened layer sequence. -/
theorem schedLoop_predsBefore (dg : DiGraph) (sinksL : List Nat) :
    ∀ (fuel : Nat) (seq out : List (List Nat)), predsBefore dg seq.flatten →
      schedLoop dg sinksL fuel seq = some out → predsBefore dg out.flatten := by
  intro fuel
  induction fuel with
  | zero => intro seq out _ hs; cases hs
  | succ n ih =>
    intro seq out h hs
    by_cases hcond : sinksL.all (fun s => seq.flatten.contains s) = true
    · simp only [schedLoop, hcond, if_true] at hs
      cases hs
      exact h
    · rw [Bool.not_eq_true] at hcond
      simp only [schedLoop, hcond, Bool.false_eq_true, if_false] at hs
      refine ih _ out ?_ hs
      have hflat : (seq ++ [nextNodes dg seq.flatten (seq.getLastD [])]).flatten =
          seq.flatten ++ nextNodes dg seq.flatten (seq.getLastD []) := by
        simp
      rw [hflat]
      exact predsBefore_append dg _ _ h
        (nextNodes_preds_scheduled dg seq.flatten (seq.getLastD []))

/-- Helper: the scheduling loop only appends layers, so the first layer of
the result is the first layer it started from. -/
theorem schedLoop_head (dg : DiGraph) (sinksL : List Nat) :
    ∀ (fuel : Nat) (l0 : List Nat) (rest out : List (List Nat)),
      schedLoop dg sinksL fuel (l0 :: rest) = some out → ∃ rest2, out = l0 :: rest2 := by
  intro fuel
  induction fuel with
  | zero => intro l0 rest out hs; cases hs
  | succ n ih =>
    intro l0 rest out hs
    by_cases hcond : sinksL.all (fun s => (l0 :: rest).flatten.contains s) = true
    · simp only [schedLoop, hcond, if_true] at hs
      cases hs
      exact ⟨rest, rfl⟩
    · rw [Bool.not_eq_true] at hcond
      simp only [schedLoop, hcond, Bool.false_eq_true, if_false] at hs
      rw [List.cons_append] at hs
      exact ih l0 _ out hs

/-- C3 counterexample: the mask `0 → 2`, `1 → 2` is a valid DAG whose only
sink is reachable from the sources, yet the scheduling loop schedules node
2 once per in-edge, so the flattened sequence `[0, 1, 2, 2]` lists a node
twice and is not a topological order (not a permutation of the node set). -/
theorem c3_schedule_not_topological_order :
    acyclicB diaDg = true ∧ sinksReachableB diaDg = true ∧
    (findSourcesAndSinks diaDg).1 = [0, 1] ∧ (findSourcesAndSinks diaDg).2.1 = [2] ∧
    schedLoop diaDg [2] 5 [[0, 1]] = some [[0, 1], [2, 2]] ∧
    ¬ ([[0, 1], [2, 2]] : List (List Nat)).flatten.Nodup :=
  ⟨by decide, by decide, by decide, by decide, rfl, by decide⟩

/-- C3 (amended): whenever the scheduling loop terminates, its first layer
is exactly the source set and every occurrence of a node in the flattened
sequence is preceded by occurrences of all of that node's predecessors; the
sequence may schedule a node more than once (once per in-edge from the
previous layer), so it is a topological order only after deduplication. -/
theorem c3_amended_schedule_order (dg : DiGraph) (fuel : Nat) (out : List (List Nat))
    (h : schedLoop dg (findSourcesAndSinks dg).2.1 fuel [(findSourcesAndSinks dg).1] = some out) :
    out.head? = some (findSourcesAndSinks dg).1 ∧ predsBefore dg out.flatten := by
  constructor
  · obtain ⟨rest2, rfl⟩ := schedLoop_head dg _ fuel _ [] out h
    rfl
  · refine schedLoop_predsBefore dg _ fuel _ out ?_ h
    intro p v hp u hu
    have hv : v ∈ (findSourcesAndSinks dg).1 := by
      have hmem : v ∈ [(findSourcesAndSinks dg).1].flatten := by
        rcases List.getElem?_eq_some_iff.mp hp with ⟨hlt, hvv⟩
        rw [← hvv]
        exact List.getElem_mem hlt
      simpa using hmem
    rw [sources_preds_nil dg v hv] at hu
    cases hu

/-- C3 witness for the amended order property at a concrete input. -/
theorem c3_amended_schedule_order_witness :
    ([[0, 1], [2, 2]] : List (List Nat)).head? = some (findSourcesAndSinks diaDg).1 ∧
    predsBefore diaDg ([[0, 1], [2, 2]] : List (List Nat)).flatten :=
  c3_amended_schedule_order diaDg 5 [[0, 1], [2, 2]] rfl

/-- C1: on the mask whose nodes 1 and 2 form a cycle feeding the only sink
0, the builder reaches the scheduling loop (the mask is non-zero and node
initialization succeeds) and then, with no source to start from, keeps
appending empty layers without ever covering the sink: model construction
diverges for every iteration budget and never raises a structural error —
the source's `while True` has no stall exit. -/
theorem c1_scheduling_stall_loops_forever (fuel : Nat) :
    buildModel fuel c1Params = .div := by
  have hstall := schedLoop_stalled (getDigraphFromBinaryMask 3 [[0, 0, 0], [0, 0, 1], [1, 1, 0]])
      [0] 0 (by simp) fuel [[]] rfl
  have hin : buildInputs c1Params = .ok [(Expr.input 0, Shape.r3 5 2)] := rfl
  have hinit : initializeAllNodes c1Params =
      .ok [(0, .denseL 3), (1, .denseL 3), (2, .denseL 3)] := rfl
  have hfss : findSourcesAndSinks (getDigraphFromBinaryMask c1Params.nodes.length
      c1Params.binary_mask) = ([], [0], []) := rfl
  simp only [buildModel, hin, hinit]
  rw [if_neg (by decide : ¬ (maskSum c1Params = 0))]
  simp only [buildStreamsGo, buildStream, hfss]
  have hdg : getDigraphFromBinaryMask c1Params.nodes.length c1Params.binary_mask =
      getDigraphFromBinaryMask 3 [[0, 0, 0], [0, 0, 1], [1, 1, 0]] := rfl
  rw [← hdg] at hstall
  rw [hstall]

theorem liftInputs_snd (xs : List (Expr × Shape)) :
    ∀ st : BState, ((liftInputs xs st).1).map Prod.snd = (xs.map Prod.snd).map liftShape := by
  induction xs with
  | nil => intro st; rfl
  | cons x rest ih =>
    intro st
    rcases x with ⟨e, sh⟩
    cases sh with
    | r2 f => simp [liftInputs, liftShape, BState.newLayer, ih]
    | r3 t f => simp [liftInputs, liftShape, ih]

theorem liftInputs_created (xs : List (Expr × Shape)) :
    ∀ st : BState, ∃ extra, ((liftInputs xs st).2).created = st.created ++ extra ∧
      ∀ y ∈ extra, y.2 = LayerSpec.lambdaExpandL := by
  induction xs with
  | nil => intro st; exact ⟨[], by simp [liftInputs], by simp⟩
  | cons x rest ih =>
    intro st
    rcases x with ⟨e, sh⟩
    cases sh with
    | r2 f =>
      obtain ⟨extra, he, hall⟩ := ih (st.newLayer LayerSpec.lambdaExpandL).2
      refine ⟨(st.freshId, LayerSpec.lambdaExpandL) :: extra, ?_, ?_⟩
      · have hstep : (liftInputs ((e, Shape.r2 f) :: rest) st).2 =
            (liftInputs rest (st.newLayer LayerSpec.lambdaExpandL).2).2 := by
          simp [liftInputs]
        rw [hstep, he]
        have hcr : (st.newLayer LayerSpec.lambdaExpandL).2.created =
            st.created ++ [(st.freshId, LayerSpec.lambdaExpandL)] := rfl
        rw [hcr]
        simp
      · intro y hy
        rcases List.mem_cons.mp hy with rfl | hy2
        · rfl
        · exact hall y hy2
    | r3 t f =>
      obtain ⟨extra, he, hall⟩ := ih st
      refine ⟨extra, ?_, hall⟩
      have hstep : (liftInputs ((e, Shape.r3 t f) :: rest) st).2 =
          (liftInputs rest st).2 := by
        simp [liftInputs]
      rw [hstep, he]

theorem liftInputs_r3_id (xs : List (Expr × Shape)) :
    ∀ st : BState, (∀ x ∈ xs, ∃ t f, x.2 = Shape.r3 t f) → liftInputs xs st = (xs, st) := by
  induction xs with
  | nil => intro st _; rfl
  | cons x rest ih =>
    intro st hall
    rcases x with ⟨e, sh⟩
    obtain ⟨t, f, hsh⟩ := hall (e, sh) (by simp)
    simp only at hsh
    subst hsh
    simp [liftInputs, ih st (fun y hy => hall y (by simp [hy]))]

theorem projectToWidth_snd (w : Nat) (xs : List (Expr × Shape)) :
    ∀ st : BState, ((projectToWidth w xs st).1).map Prod.snd =
      (xs.map Prod.snd).map (fun sh => if featOf sh = w then sh else denseShape w sh) := by
  induction xs with
  | nil => intro st; rfl
  | cons x rest ih =>
    intro st
    rcases x with ⟨e, sh⟩
    by_cases hf : featOf sh = w
    · simp [projectToWidth, hf, ih]
    · simp [projectToWidth, hf, ih, BState.newLayer]

theorem projectToWidth_created (w : Nat) (xs : List (Expr × Shape)) :
    ∀ st : BState, ∃ extra, ((projectToWidth w xs st).2).created = st.created ++ extra ∧
      ∀ y ∈ extra, y.2 = LayerSpec.denseL w := by
  induction xs with
  | nil => intro st; exact ⟨[], by simp [projectToWidth], by simp⟩
  | cons x rest ih =>
    intro st
    rcases x with ⟨e, sh⟩
    by_cases hf : featOf sh = w
    · obtain ⟨extra, he, hall⟩ := ih st
      refine ⟨extra, ?_, hall⟩
      have hstep : (projectToWidth w ((e, sh) :: rest) st).2 = (projectToWidth w rest st).2 := by
        simp [projectToWidth, hf]
      rw [hstep, he]
    · obtain ⟨extra, he, hall⟩ := ih (st.newLayer (LayerSpec.denseL w)).2
      refine ⟨(st.freshId, LayerSpec.denseL w) :: extra, ?_, ?_⟩
      · have hstep : (projectToWidth w ((e, sh) :: rest) st).2 =
            (projectToWidth w rest (st.newLayer (LayerSpec.denseL w)).2).2 := by
          simp [projectToWidth, hf]
        rw [hstep, he]
        have hcr : (st.newLayer (LayerSpec.denseL w)).2.created =
            st.created ++ [(st.freshId, LayerSpec.denseL w)] := rfl
        rw [hcr]
        simp
      · intro y hy
        rcases List.mem_cons.mp hy with rfl | hy2
        · rfl
        · exact hall y hy2

theorem foldl_catLastStepR3_ok (t : Nat) :
    ∀ (l : List Shape) (f : Nat), (∀ s ∈ l, ∃ f2, s = Shape.r3 t f2) →
      l.foldl catLastStepR3 (.ok (.r3 t f)) = .ok (.r3 t (f + (l.map featOf).sum)) := by
  intro l
  induction l with
  | nil => intro f _; simp
  | cons s rest ih =>
    intro f hall
    obtain ⟨f2, hs⟩ := hall s (by simp)
    subst hs
    have hstep : catLastStepR3 (.ok (.r3 t f)) (.r3 t f2) = .ok (.r3 t (f + f2)) := by
      simp [catLastStepR3]
    simp only [List.foldl_cons, hstep]
    rw [ih (f + f2) (fun y hy => hall y (by simp [hy]))]
    simp [featOf, Nat.add_assoc]

theorem foldl_catLastStepR3_absorb (e : String) :
    ∀ l : List Shape, l.foldl catLastStepR3 (.error e) = .error e := by
  intro l
  induction l with
  | nil => rfl
  | cons s rest ih => simp only [List.foldl_cons, catLastStepR3, ih]

theorem foldl_catAx1StepR3_ok (w : Nat) :
    ∀ (l : List Shape) (t : Nat), (∀ s ∈ l, ∃ t2, s = Shape.r3 t2 w) →
      l.foldl catAx1StepR3 (.ok (.r3 t w)) = .ok (.r3 (t + (l.map timeOf).sum) w) := by
  intro l
  induction l with
  | nil => intro t _; simp
  | cons s rest ih =>
    intro t hall
    obtain ⟨t2, hs⟩ := hall s (by simp)
    subst hs
    have hstep : catAx1StepR3 (.ok (.r3 t w)) (.r3 t2 w) = .ok (.r3 (t + t2) w) := by
      simp [catAx1StepR3]
    simp only [List.foldl_cons, hstep]
    rw [ih (t + t2) (fun y hy => hall y (by simp [hy]))]
    simp [timeOf, Nat.add_assoc]

theorem foldl_catLastStepR3_err (tt : Nat) :
    ∀ (l : List Shape) (f : Nat),
      (∀ s ∈ l, ∃ t2 f2, s = Shape.r3 t2 f2) →
      (∃ s ∈ l, timeOf s ≠ tt) →
      ∃ e, l.foldl catLastStepR3 (.ok (.r3 tt f)) = .error e := by
  intro l
  induction l with
  | nil => intro f _ hbad; simp at hbad
  | cons s rest ih =>
    intro f hall hbad
    obtain ⟨t2, f2, hs⟩ := hall s (by simp)
    subst hs
    by_cases ht2 : t2 = tt
    · subst ht2
      have hstep : catLastStepR3 (.ok (.r3 t2 f)) (.r3 t2 f2) = .ok (.r3 t2 (f + f2)) := by
        simp [catLastStepR3]
      simp only [List.foldl_cons, hstep]
      refine ih (f + f2) (fun y hy => hall y (by simp [hy])) ?_
      rcases hbad with ⟨s2, hs2, hne⟩
      rcases List.mem_cons.mp hs2 with rfl | hmem
      · exact absurd rfl hne
      · exact ⟨s2, hmem, hne⟩
    · have hstep : catLastStepR3 (.ok (.r3 tt f)) (.r3 t2 f2) =
          .error "Concatenate inputs must have matching shapes" := by
        simp [catLastStepR3]
        intro hcontra
        exact absurd hcontra.symm ht2
      simp only [List.foldl_cons, hstep, foldl_catLastStepR3_absorb]
      exact ⟨_, rfl⟩

theorem concatAxis1_mapped (w : Nat) (ss : List Shape) (hlen : 2 ≤ ss.length) :
    concatAxis1Shape (ss.map (fun sh => Shape.r3 (timeOf sh) w)) =
      .ok (.r3 ((ss.map timeOf).sum) w) := by
  match ss, hlen with
  | s1 :: s2 :: srest, _ =>
    rw [List.map_cons, List.map_cons]
    simp only [concatAxis1Shape]
    have htail : ∀ s ∈ Shape.r3 (timeOf s2) w :: srest.map (fun sh => Shape.r3 (timeOf sh) w),
        ∃ t2, s = Shape.r3 t2 w := by
      intro s hs
      rcases List.mem_cons.mp hs with rfl | hs2
      · exact ⟨timeOf s2, rfl⟩
      · rcases List.mem_map.mp hs2 with ⟨sh, _, rfl⟩
        exact ⟨timeOf sh, rfl⟩
    rw [foldl_catAx1StepR3_ok w _ (timeOf s1) htail]
    congr 2
    simp only [List.map_cons, List.sum_cons, List.map_map, Function.comp_def, timeOf,
      Nat.add_assoc]
    rfl

theorem combinePreds_all_r3 (ys : List (Expr × Shape)) (st : BState)
    (hr3 : ∀ x ∈ ys, ∃ t f, x.2 = Shape.r3 t f) (hlen : 2 ≤ ys.length) :
    ∃ e st2 extra, combinePreds ys st = .ok ((e, combinedShape (ys.map Prod.snd)), st2) ∧
      st2.created = st.created ++ extra ∧
      ∀ y ∈ extra, y.2 = LayerSpec.denseL ((ys.map (fun x => featOf x.2)).foldl max 0) := by
  match ys, hlen with
  | y1 :: y2 :: yrest, _ =>
    obtain ⟨t0, f0, h1⟩ := hr3 y1 (by simp)
    have hlen1 : ((y1 :: y2 :: yrest) : List (Expr × Shape)).length > 1 := by
      simp [List.length_cons]
    by_cases hcond : ∀ x ∈ y2 :: yrest, timeOf x.2 = t0
    · have hAll : ∀ s ∈ (y2 :: yrest).map Prod.snd, ∃ f2, s = Shape.r3 t0 f2 := by
        intro s hs
        rcases List.mem_map.mp hs with ⟨x, hx, rfl⟩
        obtain ⟨tx, fx, hx2⟩ := hr3 x (by simp [hx])
        have ht := hcond x hx
        rw [hx2] at ht ⊢
        simp only [timeOf] at ht
        rw [ht]
        exact ⟨fx, rfl⟩
      have hcat : concatLastShape (((y1 :: y2 :: yrest)).map Prod.snd) =
          .ok (.r3 t0 (f0 + (((y2 :: yrest).map Prod.snd).map featOf).sum)) := by
        rw [List.map_cons, h1]
        simp only [concatLastShape]
        exact foldl_catLastStepR3_ok t0 ((y2 :: yrest).map Prod.snd) f0 hAll
      have hshape : combinedShape (((y1 :: y2 :: yrest)).map Prod.snd) =
          .r3 t0 (f0 + (((y2 :: yrest).map Prod.snd).map featOf).sum) := by
        have hhd : ((((y1 :: y2 :: yrest)).map Prod.snd).map timeOf).headD 0 = t0 := by
          rw [List.map_cons, h1]
          simp [timeOf]
        have hallb : ((((y1 :: y2 :: yrest)).map Prod.snd).map timeOf).all
            (fun t => t == ((((y1 :: y2 :: yrest)).map Prod.snd).map timeOf).headD 0) = true := by
          refine List.all_eq_true.mpr ?_
          intro x hx
          rcases List.mem_map.mp hx with ⟨s, hs, rfl⟩
          rcases List.mem_map.mp hs with ⟨z, hz, rfl⟩
          rw [hhd]
          rcases List.mem_cons.mp hz with rfl | hz2
          · rw [h1]
            simp [timeOf]
          · have hzt := hcond z hz2
            simp [hzt]
        simp only [combinedShape, hallb, if_true]
        rw [List.map_cons, List.map_cons, List.map_cons, h1]
        simp [timeOf, featOf]
      refine ⟨Expr.concatF (((y1 :: y2 :: yrest)).map Prod.fst), st, [], ?_, by simp, by simp⟩
      rw [hshape]
      simp only [combinePreds, if_pos hlen1, hcat]
    · push_neg at hcond
      obtain ⟨xbad, hxbad, hbadne⟩ := hcond
      obtain ⟨emsg, herr⟩ : ∃ e, concatLastShape (((y1 :: y2 :: yrest)).map Prod.snd) = .error e := by
        rw [List.map_cons, h1]
        simp only [concatLastShape]
        refine foldl_catLastStepR3_err t0 ((y2 :: yrest).map Prod.snd) f0 ?_ ?_
        · intro s hs
          rcases List.mem_map.mp hs with ⟨x, hx, rfl⟩
          exact hr3 x (by simp [hx])
        · exact ⟨xbad.2, List.mem_map_of_mem Prod.snd hxbad, hbadne⟩
      have hid : liftInputs (y1 :: y2 :: yrest) st = ((y1 :: y2 :: yrest), st) :=
        liftInputs_r3_id _ st hr3
      set maxF := (((y1 :: y2 :: yrest)).map (fun x => featOf x.2)).foldl max 0 with hmax
      obtain ⟨extra, hcr, hallD⟩ := projectToWidth_created maxF (y1 :: y2 :: yrest) st
      have hsnd := projectToWidth_snd maxF (y1 :: y2 :: yrest) st
      have hproj : (((projectToWidth maxF (y1 :: y2 :: yrest) st).1).map Prod.snd) =
          (((y1 :: y2 :: yrest)).map Prod.snd).map (fun sh => Shape.r3 (timeOf sh) maxF) := by
        rw [hsnd]
        refine List.map_congr_left ?_
        intro sh hsh
        rcases List.mem_map.mp hsh with ⟨x, hx, rfl⟩
        obtain ⟨tx, fx, hx2⟩ := hr3 x hx
        rw [hx2]
        by_cases hf : featOf (Shape.r3 tx fx) = maxF
        · rw [if_pos hf]
          simp only [featOf] at hf
          rw [hf]
          rfl
        · rw [if_neg hf]
          rfl
      have hax : concatAxis1Shape (((projectToWidth maxF (y1 :: y2 :: yrest) st).1).map Prod.snd) =
          .ok (.r3 ((((y1 :: y2 :: yrest)).map Prod.snd).map timeOf).sum maxF) := by
        rw [hproj]
        exact concatAxis1_mapped maxF (((y1 :: y2 :: yrest)).map Prod.snd) (by simp)
      rcases hpp : projectToWidth maxF (y1 :: y2 :: yrest) st with ⟨projected, st2⟩
      have hshapeB : combinedShape (((y1 :: y2 :: yrest)).map Prod.snd) =
          .r3 ((((y1 :: y2 :: yrest)).map Prod.snd).map timeOf).sum maxF := by
        have hhd : ((((y1 :: y2 :: yrest)).map Prod.snd).map timeOf).headD 0 = t0 := by
          rw [List.map_cons, h1]
          simp [timeOf]
        have hallb : ((((y1 :: y2 :: yrest)).map Prod.snd).map timeOf).all
            (fun t => t == ((((y1 :: y2 :: yrest)).map Prod.snd).map timeOf).headD 0) = false := by
          cases hb : ((((y1 :: y2 :: yrest)).map Prod.snd).map timeOf).all
              (fun t => t == ((((y1 :: y2 :: yrest)).map Prod.snd).map timeOf).headD 0) with
          | false => rfl
          | true =>
            exfalso
            have hx := List.all_eq_true.mp hb (timeOf xbad.2) ?mem
            case mem =>
              refine List.mem_map.mpr ⟨xbad.2, List.mem_map_of_mem Prod.snd ?_, rfl⟩
              simp [hxbad]
            rw [hhd] at hx
            exact hbadne (by simpa using hx)
        simp only [combinedShape, hallb, Bool.false_eq_true, if_false]
        congr 1
        rw [List.map_map]
        rfl
      refine ⟨Expr.concatA1 (projected.map (fun x => x.1)), st2, extra, ?_, ?_, hallD⟩
      · rw [hshapeB]
        simp only [combinePreds, if_pos hlen1, herr, fallbackCombine, hid]
        rw [hpp] at hax ⊢
        rw [show (projected.map (fun x => x.2)) = projected.map Prod.snd from rfl]
        rw [hax]
      · rw [hpp] at hcr
        exact hcr

/-- C4: the predecessor-reconciliation path of `get_node_output` never
fails on any nonempty list of rank-2/rank-3 predecessor outputs: every
rank-2 output is lifted to rank 3 with a synthetic time axis of length 1;
with several predecessors, feature-axis concatenation is attempted first
(succeeding with the common time length and summed widths), and on a shape
mismatch the fallback projects every predecessor whose feature width is
below the maximum through a learned `Dense` layer to that maximum and
concatenates along the time axis; the layers created while reconciling are
only the `Lambda` lifts and those projection `Dense(max-width)` layers. -/
theorem c4_reconcile_never_fails (xs : List (Expr × Shape)) (st : BState) (hne : xs ≠ []) :
    ∃ e st2 extra, reconcilePreds xs st = .ok ((e, c4ExpectedShape (xs.map Prod.snd)), st2) ∧
      st2.created = st.created ++ extra ∧
      ∀ y ∈ extra, y.2 = LayerSpec.lambdaExpandL ∨
        y.2 = LayerSpec.denseL ((((xs.map Prod.snd).map liftShape).map featOf).foldl max 0) := by
  rcases hlift : liftInputs xs st with ⟨lifted, st1⟩
  have hsnd : lifted.map Prod.snd = (xs.map Prod.snd).map liftShape := by
    have h := liftInputs_snd xs st
    rw [hlift] at h
    exact h
  have hcreatedL := liftInputs_created xs st
  rw [hlift] at hcreatedL
  obtain ⟨extraL, hcrL, hallL⟩ := hcreatedL
  have hr3 : ∀ x ∈ lifted, ∃ t f, x.2 = Shape.r3 t f := by
    intro x hx
    have hx2 : x.2 ∈ lifted.map Prod.snd := List.mem_map_of_mem Prod.snd hx
    rw [hsnd] at hx2
    rcases List.mem_map.mp hx2 with ⟨sh, _, heq⟩
    cases sh with
    | r2 f => exact ⟨1, f, heq.symm⟩
    | r3 t f => exact ⟨t, f, heq.symm⟩
  have hrec : reconcilePreds xs st = combinePreds lifted st1 := by
    simp only [reconcilePreds, hlift]
  have hmaxeq : lifted.map (fun x => featOf x.2) =
      ((xs.map Prod.snd).map liftShape).map featOf := by
    rw [← hsnd, List.map_map]
    rfl
  rcases xs with _ | ⟨x1, xs2⟩
  · exact absurd rfl hne
  rcases xs2 with _ | ⟨x2, xrest⟩
  · have hlen1 : lifted.length = 1 := by
      have h := congrArg List.length hsnd
      simpa using h
    rcases lifted with _ | ⟨y1, ys⟩
    · simp at hlen1
    rcases ys with _ | ⟨y2, ys2⟩
    · have hy1 : y1.2 = liftShape x1.2 := by
        have h := hsnd
        simp only [List.map_cons, List.map_nil] at h
        exact (List.cons_eq_cons.mp h).1
      refine ⟨y1.1, st1, extraL, ?_, hcrL, fun y hy => Or.inl (hallL y hy)⟩
      rw [hrec]
      have hc : combinePreds [y1] st1 = .ok (y1, st1) := by
        simp [combinePreds]
      rw [hc]
      have hexp : c4ExpectedShape (([(x1 : Expr × Shape)]).map Prod.snd) = liftShape x1.2 := rfl
      rw [hexp, ← hy1]
    · simp at hlen1
  · have hlen2 : 2 ≤ lifted.length := by
      have h := congrArg List.length hsnd
      simp only [List.length_map, List.length_cons] at h
      omega
    obtain ⟨e, st2, extraD, hcomb, hcr2, hallD⟩ := combinePreds_all_r3 lifted st1 hr3 hlen2
    refine ⟨e, st2, extraL ++ extraD, ?_, ?_, ?_⟩
    · rw [hrec, hcomb]
      have hc : combinedShape (lifted.map Prod.snd) =
          c4ExpectedShape (((x1 :: x2 :: xrest)).map Prod.snd) := by
        rw [hsnd]
        rw [List.map_cons, List.map_cons]
        rfl
      rw [hc]
    · rw [hcr2, hcrL, List.append_assoc]
    · intro y hy
      rcases List.mem_append.mp hy with hy2 | hy2
      · exact Or.inl (hallL y hy2)
      · refine Or.inr ?_
        have hd := hallD y hy2
        rw [hd, hmaxeq]

/-- C4 witness at a concrete input: one rank-3 and one rank-2 predecessor
with mismatching time lengths and widths. -/
theorem c4_reconcile_never_fails_witness :
    (([(Expr.input 0, Shape.r3 5 6), (Expr.input 1, Shape.r2 4)] : List (Expr × Shape)) ≠ []) ∧
    (∃ e st2 extra,
      reconcilePreds [(Expr.input 0, Shape.r3 5 6), (Expr.input 1, Shape.r2 4)]
        ⟨10, [], false, false, 0⟩ =
        .ok ((e, c4ExpectedShape ([(Expr.input 0, Shape.r3 5 6),
          (Expr.input 1, Shape.r2 4)].map Prod.snd)), st2) ∧
      st2.created = (⟨10, [], false, false, 0⟩ : BState).created ++ extra ∧
      ∀ y ∈ extra, y.2 = LayerSpec.lambdaExpandL ∨
        y.2 = LayerSpec.denseL (((([(Expr.input 0, Shape.r3 5 6),
          (Expr.input 1, Shape.r2 4)].map Prod.snd).map liftShape).map featOf).foldl max 0)) :=
  ⟨by simp, c4_reconcile_never_fails _ _ (by simp)⟩

theorem buildInputsGo_spec (p : Params) :
    ∀ (l : List Nat) (ins : List (Expr × Shape)), buildInputsGo p l = .ok ins →
      ins.map Prod.fst = l.map Expr.input ∧
      ∀ x ∈ ins, ∃ t, x.2 = Shape.r3 t p.embedding_size := by
  intro l
  induction l with
  | nil =>
    intro ins h
    simp only [buildInputsGo] at h
    cases h
    exact ⟨rfl, by simp⟩
  | cons i rest ih =>
    intro ins h
    simp only [buildInputsGo] at h
    cases hts : textSizeAt p.text_size i with
    | none => rw [hts] at h; cases h
    | some ts =>
      rw [hts] at h
      cases hrest : buildInputsGo p rest with
      | error e => rw [hrest] at h; cases h
      | ok l2 =>
        rw [hrest] at h
        cases h
        obtain ⟨hfst, hsh⟩ := ih l2 hrest
        refine ⟨by simp [hfst], ?_⟩
        intro x hx
        rcases List.mem_cons.mp hx with rfl | hx2
        · exact ⟨ts, rfl⟩
        · exact hsh x hx2

theorem degenerateStreams_spec (d g : Nat) :
    ∀ ins : List (Expr × Shape), (∀ x ∈ ins, ∃ t f, x.2 = Shape.r3 t f) →
      degenerateStreams d g ins =
        .ok (ins.map (fun x => (Expr.applyL g (Expr.applyL d x.1), 1))) := by
  intro ins
  induction ins with
  | nil => intro _; rfl
  | cons x rest ih =>
    intro hall
    obtain ⟨t, f, hx⟩ := hall x (by simp)
    rcases x with ⟨e, sh⟩
    simp only at hx
    subst hx
    simp only [degenerateStreams, applyShape, List.map_cons]
    rw [ih (fun y hy => hall y (by simp [hy]))]

theorem concatWidths_ok (ws : List Nat) (hlen : 2 ≤ ws.length) :
    ∃ w, concatWidths ws = .ok w := by
  match ws, hlen with
  | a :: b :: rest, _ => exact ⟨_, rfl⟩

theorem classificationHead_spec (p : Params) (comps : List (Expr × Nat)) (st : BState)
    (hlen : 2 ≤ comps.length) :
    classificationHead p comps st =
      .ok ((Expr.activationE (p.last_layer_activation.getD "sigmoid")
        (Expr.applyL st.freshId (Expr.concatF (comps.map (fun x => x.1)))), p.n_classes),
        (st.newLayer (.denseL p.n_classes)).2) := by
  obtain ⟨w, hw⟩ := concatWidths_ok (comps.map (fun x => x.2)) (by simpa using hlen)
  simp only [classificationHead, hw, BState.newLayer]
/-- C2 (amended): for every parameter set with at least two input streams,
well-formed inputs and an all-zero binary mask, the builder returns the
degenerate architecture — the one shared `Dense(1)` projection applied to
each stream followed by the shared global max-pooling, then the
cross-stream combination and the classification head — and it does so
without extracting the graph, without initializing node layers and without
materializing any node; the only layers created are the shared `Dense(1)`,
the shared pooling layer and the head projection, independently of the
stream count. -/
theorem c2_amended_degenerate_path (p : Params) (fuel : Nat) (ins : List (Expr × Shape))
    (hmask : maskSum p = 0) (h2 : 2 ≤ p.inLen) (hins : buildInputs p = .ok ins) :
    ∃ m, buildModel fuel p = .ok m ∧
      m.expr = specDegenerate p ∧
      m.finalState.graphExtracted = false ∧
      m.finalState.initCalled = false ∧
      m.finalState.materializeCount = 0 ∧
      m.nodeLayers = [] ∧
      m.finalState.created = [(p.nodes.length, .denseL 1), (p.nodes.length + 1, .gmpL),
        (p.nodes.length + 2, .denseL p.n_classes)] := by
  obtain ⟨hfst, hsh⟩ := buildInputsGo_spec p (List.range p.inLen) ins hins
  have hlen : ins.length = p.inLen := by
    have h := congrArg List.length hfst
    simpa using h
  have hds := degenerateStreams_spec p.nodes.length (p.nodes.length + 1) ins
    (fun x hx => (hsh x hx).imp (fun t ht => ⟨p.embedding_size, ht⟩))
  have hfow : ∀ x ∈ ins.map (fun x => (Expr.applyL (p.nodes.length + 1)
      (Expr.applyL p.nodes.length x.1), 1)), x.2 = (1 : Nat) := by
    intro x hx
    rcases List.mem_map.mp hx with ⟨y, _, rfl⟩
    rfl
  have hfolen : 2 ≤ (ins.map (fun x => (Expr.applyL (p.nodes.length + 1)
      (Expr.applyL p.nodes.length x.1), 1))).length := by
    simpa [hlen] using h2
  have hcs : combineStreams (ins.map (fun x => (Expr.applyL (p.nodes.length + 1)
      (Expr.applyL p.nodes.length x.1), 1))) = .ok (degenComps p.nodes.length ins) :=
    c5_amended_combine_order _ 1 hfow hfolen
  have hcompslen : 2 ≤ (degenComps p.nodes.length ins).length := by
    simp only [degenComps, List.length_append, List.length_map, List.length_cons,
      List.length_nil]
    omega
  have hch := classificationHead_spec p (degenComps p.nodes.length ins)
    ⟨p.nodes.length + 2, [(p.nodes.length, .denseL 1), (p.nodes.length + 1, .gmpL)],
      false, false, 0⟩ hcompslen
  have hbm : buildModel fuel p = .ok
      ⟨Expr.activationE (p.last_layer_activation.getD "sigmoid")
        (Expr.applyL (p.nodes.length + 2)
          (Expr.concatF ((degenComps p.nodes.length ins).map (fun x => x.1)))),
        p.n_classes, [],
        ⟨p.nodes.length + 3,
          [(p.nodes.length, .denseL 1), (p.nodes.length + 1, .gmpL),
            (p.nodes.length + 2, .denseL p.n_classes)], false, false, 0⟩⟩ := by
    simp only [buildModel, hins, hmask, if_pos, BState.newLayer, List.nil_append, hds, hcs]
    have hst : (⟨p.nodes.length + 1 + 1,
        [(p.nodes.length, LayerSpec.denseL 1)] ++ [(p.nodes.length + 1, LayerSpec.gmpL)],
        false, false, 0⟩ : BState) =
        ⟨p.nodes.length + 2, [(p.nodes.length, LayerSpec.denseL 1),
          (p.nodes.length + 1, LayerSpec.gmpL)], false, false, 0⟩ := rfl
    rw [hst, hch]
    rfl
  refine ⟨_, hbm, ?_, rfl, rfl, rfl, rfl, rfl⟩
  have hstreams : ins.map (fun x => Expr.applyL (p.nodes.length + 1)
      (Expr.applyL p.nodes.length x.1)) =
      (List.range p.inLen).map (fun i => Expr.applyL (p.nodes.length + 1)
        (Expr.applyL p.nodes.length (Expr.input i))) := by
    have h1 : ins.map (fun x => Expr.applyL (p.nodes.length + 1)
        (Expr.applyL p.nodes.length x.1)) =
        (ins.map Prod.fst).map (fun e => Expr.applyL (p.nodes.length + 1)
          (Expr.applyL p.nodes.length e)) := by
      rw [List.map_map]
      rfl
    rw [h1, hfst, List.map_map]
    rfl
  have hmapfst : (degenComps p.nodes.length ins).map (fun x => x.1) =
      (ins.map (fun x => Expr.applyL (p.nodes.length + 1) (Expr.applyL p.nodes.length x.1)))
      ++ (if ins.length = 2 then
        [Expr.subtE (ins.map (fun x => Expr.applyL (p.nodes.length + 1)
          (Expr.applyL p.nodes.length x.1)))] else [])
      ++ [Expr.addE (ins.map (fun x => Expr.applyL (p.nodes.length + 1)
            (Expr.applyL p.nodes.length x.1))),
          Expr.multE (ins.map (fun x => Expr.applyL (p.nodes.length + 1)
            (Expr.applyL p.nodes.length x.1)))] := by
    simp only [degenComps, List.map_append, List.map_map, List.length_map,
      apply_ite (List.map (fun x : Expr × Nat => x.1))]
    rfl
  simp only [specDegenerate, hmapfst, hstreams, hlen]

/-- C2 counterexample: with exactly one input stream and a zero mask the
degenerate path reaches `Add()` on a single-element list, which keras
rejects, so model construction raises a `ValueError` instead of returning
the degenerate model — the claim fails for one-stream parameter sets. -/
theorem c2_one_stream_merge_error :
    maskSum c2OneStream = 0 ∧ c2OneStream.inLen = 1 ∧
    buildModel 9 c2OneStream =
      .err "A merge layer should be called on a list of at least 2 inputs." :=
  ⟨rfl, rfl, rfl⟩

/-- C2 witness for the amended degenerate path at a concrete two-stream
input. -/
theorem c2_amended_degenerate_path_witness :
    maskSum c2TwoStreams = 0 ∧ 2 ≤ c2TwoStreams.inLen ∧
    buildInputs c2TwoStreams =
      .ok [(Expr.input 0, Shape.r3 5 2), (Expr.input 1, Shape.r3 5 2)] ∧
    (∃ m, buildModel 9 c2TwoStreams = .ok m ∧
      m.expr = specDegenerate c2TwoStreams ∧
      m.finalState.graphExtracted = false ∧
      m.finalState.initCalled = false ∧
      m.finalState.materializeCount = 0 ∧
      m.nodeLayers = [] ∧
      m.finalState.created = [(c2TwoStreams.nodes.length, .denseL 1),
        (c2TwoStreams.nodes.length + 1, .gmpL),
        (c2TwoStreams.nodes.length + 2, .denseL c2TwoStreams.n_classes)]) :=
  ⟨rfl, by decide, rfl,
    c2_amended_degenerate_path c2TwoStreams 9
      [(Expr.input 0, Shape.r3 5 2), (Expr.input 1, Shape.r3 5 2)] rfl (by decide) rfl⟩

theorem poolOutputs_created (outs : List (Expr × Shape)) :
    ∀ st : BState, ∃ extra, ((poolOutputs outs st).2).created = st.created ++ extra ∧
      ∀ y ∈ extra, y.2 = LayerSpec.gmpL := by
  induction outs with
  | nil => intro st; exact ⟨[], by simp [poolOutputs], by simp⟩
  | cons x rest ih =>
    intro st
    rcases x with ⟨e, sh⟩
    cases sh with
    | r2 f =>
      obtain ⟨extra, he, hall⟩ := ih st
      refine ⟨extra, ?_, hall⟩
      have hstep : (poolOutputs ((e, Shape.r2 f) :: rest) st).2 = (poolOutputs rest st).2 := by
        simp [poolOutputs]
      rw [hstep, he]
    | r3 t f =>
      obtain ⟨extra, he, hall⟩ := ih (st.newLayer LayerSpec.gmpL).2
      refine ⟨(st.freshId, LayerSpec.gmpL) :: extra, ?_, ?_⟩
      · have hstep : (poolOutputs ((e, Shape.r3 t f) :: rest) st).2 =
            (poolOutputs rest (st.newLayer LayerSpec.gmpL).2).2 := by
          simp [poolOutputs]
        rw [hstep, he]
        have hcr : (st.newLayer LayerSpec.gmpL).2.created =
            st.created ++ [(st.freshId, LayerSpec.gmpL)] := rfl
        rw [hcr]
        simp
      · intro y hy
        rcases List.mem_cons.mp hy with rfl | hy2
        · rfl
        · exact hall y hy2

theorem combineSinks_created (sinksL : List Nat) (eos : List (Nat × (Expr × Shape)))
    (st : BState) (out : Expr × Shape) (st2 : BState)
    (h : combineSinks sinksL eos st = .ok (out, st2)) :
    ∃ extra, st2.created = st.created ++ extra ∧ ∀ y ∈ extra, y.2 = LayerSpec.gmpL := by
  match sinksL with
  | [s] =>
    simp only [combineSinks] at h
    cases hl : eos.lookup s with
    | none =>
      simp only [hl] at h
      exact BRes.noConfusion h
    | some o =>
      simp only [hl] at h
      cases h
      exact ⟨[], by simp, by simp⟩
  | [] =>
    simp only [combineSinks] at h
    cases hlo : lookupOutputs eos [] with
    | error e =>
      simp only [hlo] at h
      exact BRes.noConfusion h
    | ok outs =>
      simp only [hlo] at h
      cases hc1 : concatLastShape (outs.map (fun x => x.2)) with
      | ok sh =>
        simp only [hc1] at h
        cases h
        exact ⟨[], by simp, by simp⟩
      | error e =>
        simp only [hc1] at h
        obtain ⟨extra, he, hall⟩ := poolOutputs_created outs st
        cases hc2 : concatAxis1Shape ((poolOutputs outs st).1.map (fun x => x.2)) with
        | error e2 =>
          simp only [hc2] at h
          exact BRes.noConfusion h
        | ok sh2 =>
          simp only [hc2] at h
          cases h
          exact ⟨extra, he, hall⟩
  | s1 :: s2 :: srest =>
    simp only [combineSinks] at h
    cases hlo : lookupOutputs eos (s1 :: s2 :: srest) with
    | error e =>
      simp only [hlo] at h
      exact BRes.noConfusion h
    | ok outs =>
      simp only [hlo] at h
      cases hc1 : concatLastShape (outs.map (fun x => x.2)) with
      | ok sh =>
        simp only [hc1] at h
        cases h
        exact ⟨[], by simp, by simp⟩
      | error e =>
        simp only [hc1] at h
        obtain ⟨extra, he, hall⟩ := poolOutputs_created outs st
        cases hc2 : concatAxis1Shape ((poolOutputs outs st).1.map (fun x => x.2)) with
        | error e2 =>
          simp only [hc2] at h
          exact BRes.noConfusion h
        | ok sh2 =>
          simp only [hc2] at h
          cases h
          exact ⟨extra, he, hall⟩

theorem fixRank_created (x : Expr × Shape) (st : BState) :
    ∃ extra, ((fixRank x st).2).created = st.created ++ extra ∧
      ∀ y ∈ extra, y.2 = LayerSpec.gmpL := by
  rcases x with ⟨e, sh⟩
  cases sh with
  | r2 f => exact ⟨[], by simp [fixRank], by simp⟩
  | r3 t f =>
    refine ⟨[(st.freshId, LayerSpec.gmpL)], ?_, ?_⟩
    · simp [fixRank, BState.newLayer]
    · intro y hy
      rcases List.mem_cons.mp hy with rfl | hy2
      · rfl
      · simp at hy2

theorem getNodeOutput_created (ml : List (Nat × LayerSpec)) (v : Nat) (dg : DiGraph)
    (nodes : List NodeSpec) (eos : List (Nat × (Expr × Shape))) (inpOpt : Option (Expr × Shape))
    (st : BState) (out : Expr × Shape) (st2 : BState)
    (h : getNodeOutput ml v dg nodes eos inpOpt st = .ok (out, st2)) :
    ∃ extra, st2.created = st.created ++ extra ∧
      ∀ y ∈ extra, isStreamScratchLayer y.2 := by
  have happly : ∀ (r : (Expr × Shape) × BState),
      (match (BRes.ok r : BRes ((Expr × Shape) × BState)) with
        | .div => BRes.div
        | .err e => BRes.err e
        | .ok ((e, sh), st2a) =>
          match nodes[v]? with
          | none => BRes.err "KeyError: missing node spec"
          | some ns =>
            if ns.node_name = "SelfMultiplicativeAttention" then
              match ml.lookup v with
              | none => BRes.err "KeyError: node layer missing from model_layers"
              | some _ =>
                match applyShape .attnL sh with
                | .error m => BRes.err m
                | .ok sh2 => BRes.ok ((Expr.applyAttn v e, sh2), st2a)
            else
              match ml.lookup v with
              | none => BRes.err "KeyError: node layer missing from model_layers"
              | some spec =>
                match applyShape spec sh with
                | .error m => BRes.err m
                | .ok sh2 => BRes.ok ((Expr.applyL v e, sh2), st2a)) = .ok (out, st2) →
      st2 = r.2 := by
    intro r hr
    rcases r with ⟨⟨e0, sh0⟩, sta⟩
    simp only at hr
    cases hn : nodes[v]? with
    | none =>
      simp only [hn] at hr
      exact BRes.noConfusion hr
    | some ns =>
      simp only [hn] at hr
      by_cases hname : ns.node_name = "SelfMultiplicativeAttention"
      · simp only [if_pos hname] at hr
        cases hml : ml.lookup v with
        | none =>
          simp only [hml] at hr
          exact BRes.noConfusion hr
        | some spec =>
          simp only [hml] at hr
          cases has : applyShape .attnL sh0 with
          | error m =>
            simp only [has] at hr
            exact BRes.noConfusion hr
          | ok sh2 =>
            simp only [has] at hr
            cases hr
            rfl
      · simp only [if_neg hname] at hr
        cases hml : ml.lookup v with
        | none =>
          simp only [hml] at hr
          exact BRes.noConfusion hr
        | some spec =>
          simp only [hml] at hr
          cases has : applyShape spec sh0 with
          | error m =>
            simp only [has] at hr
            exact BRes.noConfusion hr
          | ok sh2 =>
            simp only [has] at hr
            cases hr
            rfl
  cases inpOpt with
  | some x =>
    simp only [getNodeOutput] at h
    have hst2 := happly (x, { st with materializeCount := st.materializeCount + 1 }) h
    rw [hst2]
    exact ⟨[], by simp, by simp⟩
  | none =>
    simp only [getNodeOutput] at h
    cases hlo : lookupOutputs eos (dg.predsOf v) with
    | error e =>
      simp only [hlo] at h
      exact BRes.noConfusion h
    | ok xs =>
      simp only [hlo] at h
      rcases hxs : xs with _ | ⟨x1, xrest⟩
      · rw [hxs] at h
        have hrec : reconcilePreds ([] : List (Expr × Shape))
            { st with materializeCount := st.materializeCount + 1 } =
            .err "IndexError: inp_list[0] on an empty list" := rfl
        rw [hrec] at h
        exact BRes.noConfusion h
      · obtain ⟨e2, stc, extra, hrec, hcr, hall⟩ := c4_reconcile_never_fails (x1 :: xrest)
          { st with materializeCount := st.materializeCount + 1 } (by simp)
        rw [hxs] at h
        rw [hrec] at h
        have hst2 := happly ((e2, c4ExpectedShape ((x1 :: xrest).map Prod.snd)), stc) h
        rw [hst2]
        refine ⟨extra, hcr, ?_⟩
        intro y hy
        rcases hall y hy with h1 | h1
        · exact Or.inl h1
        · exact Or.inr (Or.inl ⟨_, h1⟩)

theorem materializeSeq_created (ml : List (Nat × LayerSpec)) (nodes : List NodeSpec)
    (dg : DiGraph) (srcs isolates : List Nat) (inp : Expr × Shape) :
    ∀ (seqN : List Nat) (eos : List (Nat × (Expr × Shape))) (st : BState)
      (eos2 : List (Nat × (Expr × Shape))) (st2 : BState),
      materializeSeq ml nodes dg srcs isolates inp seqN eos st = .ok (eos2, st2) →
      ∃ extra, st2.created = st.created ++ extra ∧
        ∀ y ∈ extra, isStreamScratchLayer y.2 := by
  intro seqN
  induction seqN with
  | nil =>
    intro eos st eos2 st2 h
    simp only [materializeSeq] at h
    cases h
    exact ⟨[], by simp, by simp⟩
  | cons v rest ih =>
    intro eos st eos2 st2 h
    simp only [materializeSeq] at h
    by_cases hsrc : srcs.contains v = true
    · simp only [hsrc, if_true] at h
      cases hg : getNodeOutput ml v dg nodes eos (some inp) st with
      | div => rw [hg] at h; exact BRes.noConfusion h
      | err e => rw [hg] at h; exact BRes.noConfusion h
      | ok r =>
        rcases r with ⟨o, stg⟩
        rw [hg] at h
        obtain ⟨extra1, hcr1, hall1⟩ := getNodeOutput_created ml v dg nodes eos (some inp)
          st o stg hg
        obtain ⟨extra2, hcr2, hall2⟩ := ih ((v, o) :: eos) stg eos2 st2 h
        refine ⟨extra1 ++ extra2, ?_, ?_⟩
        · rw [hcr2, hcr1, List.append_assoc]
        · intro y hy
          rcases List.mem_append.mp hy with hy2 | hy2
          · exact hall1 y hy2
          · exact hall2 y hy2
    · rw [Bool.not_eq_true] at hsrc
      simp only [hsrc, Bool.false_eq_true, if_false] at h
      by_cases hiso : isolates.contains v = true
      · simp only [hiso, if_true] at h
        exact ih eos st eos2 st2 h
      · rw [Bool.not_eq_true] at hiso
        simp only [hiso, Bool.false_eq_true, if_false] at h
        cases hg : getNodeOutput ml v dg nodes eos none st with
        | div => rw [hg] at h; exact BRes.noConfusion h
        | err e => rw [hg] at h; exact BRes.noConfusion h
        | ok r =>
          rcases r with ⟨o, stg⟩
          rw [hg] at h
          obtain ⟨extra1, hcr1, hall1⟩ := getNodeOutput_created ml v dg nodes eos none
            st o stg hg
          obtain ⟨extra2, hcr2, hall2⟩ := ih ((v, o) :: eos) stg eos2 st2 h
          refine ⟨extra1 ++ extra2, ?_, ?_⟩
          · rw [hcr2, hcr1, List.append_assoc]
          · intro y hy
            rcases List.mem_append.mp hy with hy2 | hy2
            · exact hall1 y hy2
            · exact hall2 y hy2

theorem buildStream_created (p : Params) (ml : List (Nat × LayerSpec)) (fuel : Nat)
    (inp : Expr × Shape) (st : BState) (out : Expr × Nat) (st2 : BState)
    (h : buildStream p ml fuel inp st = .ok (out, st2)) :
    ∃ extra, st2.created = st.created ++ extra ∧
      ∀ y ∈ extra, isStreamScratchLayer y.2 := by
  simp only [buildStream] at h
  cases hs : schedLoop (getDigraphFromBinaryMask p.nodes.length p.binary_mask)
      (findSourcesAndSinks (getDigraphFromBinaryMask p.nodes.length p.binary_mask)).2.1 fuel
      [(findSourcesAndSinks (getDigraphFromBinaryMask p.nodes.length p.binary_mask)).1] with
  | none =>
    simp only [hs] at h
    exact BRes.noConfusion h
  | some layers =>
    simp only [hs] at h
    cases hm : materializeSeq ml p.nodes (getDigraphFromBinaryMask p.nodes.length p.binary_mask)
        (findSourcesAndSinks (getDigraphFromBinaryMask p.nodes.length p.binary_mask)).1
        (findSourcesAndSinks (getDigraphFromBinaryMask p.nodes.length p.binary_mask)).2.2 inp
        layers.flatten [] { st with graphExtracted := true } with
    | div =>
      simp only [hm] at h
      exact BRes.noConfusion h
    | err e =>
      simp only [hm] at h
      exact BRes.noConfusion h
    | ok r =>
      rcases r with ⟨eos1, st1⟩
      simp only [hm] at h
      obtain ⟨extra1, hcr1, hall1⟩ := materializeSeq_created ml p.nodes _ _ _ inp
        layers.flatten [] { st with graphExtracted := true } eos1 st1 hm
      cases hcs : combineSinks
          (findSourcesAndSinks (getDigraphFromBinaryMask p.nodes.length p.binary_mask)).2.1
          eos1 st1 with
      | div =>
        simp only [hcs] at h
        exact BRes.noConfusion h
      | err e =>
        simp only [hcs] at h
        exact BRes.noConfusion h
      | ok r2 =>
        rcases r2 with ⟨out1, stc⟩
        rcases hfix : fixRank out1 stc with ⟨o2, s2⟩
        simp only [hcs, hfix, BRes.ok.injEq, Prod.mk.injEq] at h
        obtain ⟨extra2, hcr2, hall2⟩ := combineSinks_created _ eos1 st1 out1 stc hcs
        obtain ⟨extra3, hcr3, hall3⟩ := fixRank_created out1 stc
        rw [hfix] at hcr3
        obtain ⟨h1, h2⟩ := h
        subst h2
        refine ⟨extra1 ++ (extra2 ++ extra3), ?_, ?_⟩
        · rw [hcr3, hcr2, hcr1]
          simp [List.append_assoc]
        · intro y hy
          rcases List.mem_append.mp hy with hy2 | hy2
          · exact hall1 y hy2
          · rcases List.mem_append.mp hy2 with hy3 | hy3
            · exact Or.inr (Or.inr (hall2 y hy3))
            · exact Or.inr (Or.inr (hall3 y hy3))

theorem initNode_ok_none (nodes : List NodeSpec) (iso : List Nat) (i : Nat)
    (h : initNode nodes iso i = .ok none) : iso.contains i = true := by
  by_contra hc
  rw [Bool.not_eq_true] at hc
  simp only [initNode, hc, Bool.false_eq_true, if_false] at h
  cases hn : nodes[i]? with
  | none => simp [hn] at h
  | some ns =>
    simp only [hn] at h
    by_cases h1 : ns.node_name = "BiCuDNNLSTM"
    · simp only [if_pos h1] at h
      cases hu : ns.kwargs.units <;> simp [hu] at h
    · simp only [if_neg h1] at h
      by_cases h2 : ns.node_name = "SelfMultiplicativeAttention"
      · simp [if_pos h2] at h
      · simp only [if_neg h2] at h
        by_cases h3 : globalsCallables.contains ns.node_name = true
        · simp only [h3, if_true] at h
          cases hcn : constructByName ns.node_name ns.kwargs <;> simp [hcn] at h
        · rw [Bool.not_eq_true] at h3
          have h3m : ns.node_name ∉ globalsCallables := by simpa using h3
          simp [h3m] at h

theorem initAllGo_keys (nodes : List NodeSpec) (iso : List Nat) :
    ∀ (l : List Nat) (acc res : List (Nat × LayerSpec)),
      initAllGo nodes iso l acc = .ok res →
      res.map Prod.fst = acc.map Prod.fst ++ l.filter (fun i => !iso.contains i) := by
  intro l
  induction l with
  | nil =>
    intro acc res h
    simp only [initAllGo] at h
    cases h
    simp
  | cons i rest ih =>
    intro acc res h
    simp only [initAllGo] at h
    cases hini : initNode nodes iso i with
    | error e =>
      simp only [hini] at h
      exact Except.noConfusion h
    | ok r =>
      simp only [hini] at h
      cases r with
      | none =>
        have hcont := initNode_ok_none nodes iso i hini
        have hmem : i ∈ iso := by simpa using hcont
        have hres := ih acc res h
        rw [hres]
        simp [List.filter_cons, hmem]
      | some spec =>
        have hcont : iso.contains i = false := by
          by_contra hc
          rw [Bool.not_eq_false] at hc
          have hm : i ∈ iso := by simpa using hc
          simp [initNode, hm] at hini
        have hmem : i ∉ iso := by simpa using hcont
        have hres := ih (acc ++ [(i, spec)]) res h
        rw [hres]
        simp [List.filter_cons, hmem]

/-- C7 (amended): `initialize_all_nodes` creates exactly one layer instance per
non-isolate node, before and independently of the per-stream loop (its result
does not depend on the number of input streams), and the per-stream
materialization only creates lift/projection/pooling scratch layers, never
node layers. -/
theorem c7_amended_layer_sharing (p : Params) (k : Nat)
    (ml : List (Nat × LayerSpec)) (fuel : Nat) (inp : Expr × Shape)
    (st : BState) (out : Expr × Nat) (st2 : BState)
    (h : buildStream p ml fuel inp st = .ok (out, st2)) :
    initializeAllNodes { p with inLen := k } = initializeAllNodes p ∧
    (∀ ls, initializeAllNodes p = .ok ls → ls.map Prod.fst = nonIsolates p) ∧
    (∃ extra, st2.created = st.created ++ extra ∧
      ∀ y ∈ extra, isStreamScratchLayer y.2) := by
  refine ⟨rfl, ?_, buildStream_created p ml fuel inp st out st2 h⟩
  intro ls hls
  have hkeys := initAllGo_keys p.nodes (isolatesOf p) (List.range p.nodes.length) [] ls hls
  rw [hkeys]
  simp [nonIsolates]


/-- C7 counterexample: the same node specs and binary mask built with 2 versus
3 input streams yield models with 8 versus 10 trainable layers, because the
shape-reconciliation fallback in `get_node_output` creates a fresh trainable
Dense projection per mismatched predecessor per stream — so the trainable
layer set is not independent of the stream count as claimed. -/
theorem c7_trainable_count_depends_on_streams :
    (c7Params 2).nodes = (c7Params 3).nodes ∧
    (c7Params 2).binary_mask = (c7Params 3).binary_mask ∧
    (buildModel 9 (c7Params 2)).isOk = true ∧
    (buildModel 9 (c7Params 3)).isOk = true ∧
    trainableCountOf (buildModel 9 (c7Params 2)) = 8 ∧
    trainableCountOf (buildModel 9 (c7Params 3)) = 10 ∧
    (8 : Nat) ≠ 10 :=
  ⟨rfl, rfl, rfl, rfl, rfl, rfl, by decide⟩

/-- Witness for C7 (amended) at a concrete two-node chain: the stream build
succeeds, node initialization is unchanged by the stream count, initializes
exactly the non-isolate nodes, and the stream build creates no layers at all. -/
theorem c7_amended_layer_sharing_witness :
    buildStream c7WitnessParams
        [(0, LayerSpec.lstmL 6 true), (1, LayerSpec.lstmL 4 false)] 9
        (Expr.input 0, Shape.r3 7 3) ⟨2, [], true, true, 0⟩ =
      .ok ((Expr.applyL 1 (Expr.applyL 0 (Expr.input 0)), 4),
           ⟨2, [], true, true, 2⟩) ∧
    (initializeAllNodes { c7WitnessParams with inLen := 5 } =
        initializeAllNodes c7WitnessParams ∧
     (∀ ls, initializeAllNodes c7WitnessParams = .ok ls →
        ls.map Prod.fst = nonIsolates c7WitnessParams) ∧
     (∃ extra, (⟨2, [], true, true, 2⟩ : BState).created =
        (⟨2, [], true, true, 0⟩ : BState).created ++ extra ∧
        ∀ y ∈ extra, isStreamScratchLayer y.2)) :=
  ⟨rfl, c7_amended_layer_sharing c7WitnessParams 5
    [(0, LayerSpec.lstmL 6 true), (1, LayerSpec.lstmL 4 false)] 9
    (Expr.input 0, Shape.r3 7 3) ⟨2, [], true, true, 0⟩
    (Expr.applyL 1 (Expr.applyL 0 (Expr.input 0)), 4)
    ⟨2, [], true, true, 2⟩ rfl⟩
